import Mathlib

/-!
# Verification of the configurator reflection core (`reflect.go`)

A shallow embedding of the repository's single source file `reflect.go`:
the struct-tag parser (`parseTag`, `parseENV`, `parseFlag`, `parseDefault`),
the key-derivation methods on `fieldInfo` (`path`, `ENVKey`, `FlagKey`,
`DefVal`), the struct walker (`getStructInfo`), and the string-to-value
coercion engine (`setFieldValue`, `setPtrValue`, `setSliceValue`).

Go strings are modelled as Lean `String`; the handful of `strings` /
`strconv` / `time` standard-library functions the source calls are embedded
as executable Lean definitions over `List Char` faithful to their documented
behaviour (granularity notes appear on each). Machine integers are `Int` /
`Nat` with explicit two's-complement wrapping where the source can overflow.
The platform is modelled as 64-bit (`strconv.IntSize = 64`), matching the
spec's "bit width matching platform pointer width".

Symbols referenced by `reflect.go` but defined elsewhere in the repository
(`durationType`, `ErrInvalidConfig`, `ErrInvalidTagFormat`,
`ErrUnsupported`) are modelled from the spec: the spec's coercion table says
a field "declared as a *duration* type" parses as a duration literal, so
`durationType` is the `time.Duration` type itself; the three error
sentinels are opaque tags carried in the `GoErr` sum below.
-/

deriving instance DecidableEq for Except

namespace Configurator

/-! ## Go string primitives (embedding of the `strings` package calls) -/

/-- `strings.HasPrefix(s, p)`. -/
def goHasPrefix (s p : String) : Bool := p.data.isPrefixOf s.data

/-- `strings.TrimPrefix(s, p)`: drop `p` from the front when present. -/
def goTrimPrefix (s p : String) : String :=
  if goHasPrefix s p then ⟨s.data.drop p.data.length⟩ else s

/-- Splitting a character list at a separator character. -/
def splitChars (sep : Char) : List Char → List (List Char)
  | [] => [[]]
  | c :: cs =>
    if c = sep then [] :: splitChars sep cs
    else match splitChars sep cs with
      | [] => [[c]]
      | t :: ts => (c :: t) :: ts

/-- `strings.Split(s, sep)` for a one-character separator, as used with
`tagSeparator = ","`. `splitChars` agrees with Go's semantics:
`Split("", ",") = [""]`, empty fields are kept. -/
def goSplit (s : String) (sep : Char) : List String :=
  (splitChars sep s.data).map String.mk

/-- `strings.Join(elems, sep)`. -/
def goJoin (elems : List String) (sep : String) : String :=
  match elems with
  | [] => ""
  | e :: es => es.foldl (fun acc x => acc ++ sep ++ x) e

/-- `strings.ToUpper` (ASCII behaviour; the derived keys in this code are
built from Go identifiers, which are ASCII). -/
def goToUpper (s : String) : String := ⟨s.data.map Char.toUpper⟩

/-- `strings.ToLower` (ASCII behaviour). -/
def goToLower (s : String) : String := ⟨s.data.map Char.toLower⟩

/-! ## Error model

`ErrInvalidConfig`, `ErrInvalidTagFormat` and `ErrUnsupported` are
repository sentinels defined outside `src/`; the spec (§6) describes them as
three opaque error classification sentinels, so they are modelled as tags.
`fmt.Errorf("%w, ...", sentinel)` / `fmt.Errorf("...: %w type [%s]", ...)`
wrapping is modelled by carrying the formatted context alongside the tag.
Unclassified literal-parse failures propagate as raw messages. -/

inductive GoErr where
  /-- `ErrInvalidConfig`. -/
  | invalidConfig
  /-- `ErrInvalidTagFormat`, wrapped with the suffix text of the
  `fmt.Errorf` call that produced it. -/
  | invalidTagFormat (msg : String)
  /-- `ErrUnsupported`, wrapped as `"<fn>: ... type [<kind>]"`. -/
  | unsupported (fn : String) (kind : String)
  /-- an error from a `strconv`/`time` parser, propagated untranslated. -/
  | parseFailure (msg : String)
deriving DecidableEq, Repr

/-! ## Tag parsing (`parseTag`, `parseENV`, `parseFlag`, `parseDefault`) -/

/-- `tagInfo` from `reflect.go`. The zero value `{}` is `tagInfo{}`. -/
structure tagInfo where
  flag : String := ""
  hasFlag : Bool := false
  env : String := ""
  hasENV : Bool := false
  defVal : String := ""
  hasDefault : Bool := false
deriving DecidableEq, Repr

/-- `parseENV`: sets `hasENV`, and for the `env=` form stores the explicit
value, rejecting an empty one. (The `field` argument of the Go function is
unused there and omitted.) -/
def parseENV (t : tagInfo) (v : String) : Except GoErr tagInfo :=
  let t := { t with hasENV := true }
  if goHasPrefix v "env=" then
    let t := { t with env := goTrimPrefix v "env=" }
    if t.env = "" then
      .error (.invalidTagFormat "either `env` or `env=ENV_KEY` is valid")
    else .ok t
  else .ok t

/-- `parseFlag`. -/
def parseFlag (t : tagInfo) (v : String) : Except GoErr tagInfo :=
  let t := { t with hasFlag := true }
  if goHasPrefix v "flag=" then
    let t := { t with flag := goTrimPrefix v "flag=" }
    if t.flag = "" then
      .error (.invalidTagFormat "either `flag` or `flag=flag-key` is valid")
    else .ok t
  else .ok t

/-- `parseDefault`. -/
def parseDefault (t : tagInfo) (v : String) : Except GoErr tagInfo :=
  let t := { t with hasDefault := true }
  if goHasPrefix v "default=" then
    let t := { t with defVal := goTrimPrefix v "default=" }
    if t.defVal = "" then
      .error (.invalidTagFormat "either `default` or `default=value` is valid")
    else .ok t
  else .ok t

/-- The body of `parseTag`'s `switch` for one comma-separated token. -/
def applyToken (t : tagInfo) (s : String) : Except GoErr tagInfo :=
  if goHasPrefix s "env" then parseENV t s
  else if goHasPrefix s "flag" then parseFlag t s
  else if goHasPrefix s "default" then parseDefault t s
  else .ok t

/-- The loop of `parseTag` over the split tokens. -/
def parseTagTokens (t : tagInfo) : List String → Except GoErr tagInfo
  | [] => .ok t
  | s :: rest => (applyToken t s).bind (fun t' => parseTagTokens t' rest)

/-- `parseTag`, applied to the value of the field's `config` struct-tag key.
(The extraction `field.Tag.Get("config")` is the standard-library struct-tag
lookup; this embedding takes the already-extracted string.) -/
def parseTag (tagStr : String) : Except GoErr tagInfo :=
  parseTagTokens {} (goSplit tagStr ',')

/-! ## Field descriptors and derived keys (`fieldInfo`) -/

/-- The part of `fieldInfo` that key derivation reads: the declared field
name, the parsed tag, and the parent back-reference. The Go `parent` is a
nullable pointer; its two states are the two constructors (`root` for
`parent == nil`). The reflection handle `val` lives in the walker's value
model below. -/
inductive FieldNode where
  | root (name : String) (tag : tagInfo)
  | child (name : String) (tag : tagInfo) (parent : FieldNode)
deriving DecidableEq, Repr

/-- Build a `fieldInfo` node from a nullable parent. -/
def FieldNode.make (name : String) (tag : tagInfo) : Option FieldNode → FieldNode
  | none => .root name tag
  | some p => .child name tag p

def FieldNode.name : FieldNode → String
  | .root n _ => n
  | .child n _ _ => n

def FieldNode.tag : FieldNode → tagInfo
  | .root _ t => t
  | .child _ t _ => t

def FieldNode.parent : FieldNode → Option FieldNode
  | .root _ _ => none
  | .child _ _ p => some p

/-- `fieldInfo.path`: the declared names from the catalog root down to this
field, inclusive (the Go loop prepends each parent's name). -/
def FieldNode.path : FieldNode → List String
  | .root n _ => [n]
  | .child n _ p => p.path ++ [n]

/-- `fieldInfo.ENVKey`. -/
def FieldNode.ENVKey (f : FieldNode) : String :=
  if f.tag.hasENV then
    if f.tag.env = "" then goToUpper (goJoin f.path "_")
    else f.tag.env
  else ""

/-- `fieldInfo.FlagKey`. -/
def FieldNode.FlagKey (f : FieldNode) : String :=
  if f.tag.hasFlag then
    if f.tag.flag = "" then goToLower (goJoin f.path "-")
    else f.tag.flag
  else ""

/-- `fieldInfo.DefVal`. -/
def FieldNode.DefVal (f : FieldNode) : String :=
  if f.tag.hasDefault then f.tag.defVal else ""

/-! ## The Go type and value model

`reflect.Type` / `reflect.Value` are modelled by first-order trees. Named
types that the source distinguishes by identity (`time.Time` via `timeType`
/ `timePtrType`, `time.Duration` via `durationType`) are their own
constructors; `GoType.kind` is `reflect.Type.Kind()` (so `duration` has
kind `Int64` and `time` has kind `Struct`, exactly as in Go). Struct types
carry their field list (name, `Anonymous`, exportedness — `CanSet` on an
addressable value — raw `config` tag, type). Recursive Go types are outside
this model: a `GoType` is a finite tree. -/

mutual
inductive GoType where
  | bool | int | int8 | int16 | int32 | int64
  | duration
  | uint | uint8 | uint16 | uint32 | uint64
  | float32 | float64
  | string
  | time
  | ptr (elem : GoType)
  | slice (elem : GoType)
  | struct (fields : GoFields)
deriving DecidableEq, Repr

inductive GoFields where
  | nil
  | cons (f : GoField) (rest : GoFields)
deriving DecidableEq, Repr

inductive GoField where
  | mk (name : String) (anonymous exported : Bool) (tag : String) (type : GoType)
deriving DecidableEq, Repr
end

def GoField.name : GoField → String
  | .mk n _ _ _ _ => n

def GoField.anonymous : GoField → Bool
  | .mk _ a _ _ _ => a

def GoField.exported : GoField → Bool
  | .mk _ _ e _ _ => e

def GoField.tag : GoField → String
  | .mk _ _ _ t _ => t

def GoField.type : GoField → GoType
  | .mk _ _ _ _ ty => ty

/-- `reflect.Kind` (the kinds reachable from the modelled types). -/
inductive GoKind where
  | kBool | kInt | kInt8 | kInt16 | kInt32 | kInt64
  | kUint | kUint8 | kUint16 | kUint32 | kUint64
  | kFloat32 | kFloat64 | kString | kPtr | kSlice | kStruct
deriving DecidableEq, Repr

/-- `reflect.Type.Kind()`. -/
def GoType.kind : GoType → GoKind
  | .bool => .kBool
  | .int => .kInt
  | .int8 => .kInt8
  | .int16 => .kInt16
  | .int32 => .kInt32
  | .int64 => .kInt64
  | .duration => .kInt64
  | .uint => .kUint
  | .uint8 => .kUint8
  | .uint16 => .kUint16
  | .uint32 => .kUint32
  | .uint64 => .kUint64
  | .float32 => .kFloat32
  | .float64 => .kFloat64
  | .string => .kString
  | .time => .kStruct
  | .ptr _ => .kPtr
  | .slice _ => .kSlice
  | .struct _ => .kStruct

/-- `reflect.Kind.String()` for the kinds above. -/
def GoKind.string : GoKind → String
  | .kBool => "bool"
  | .kInt => "int"
  | .kInt8 => "int8"
  | .kInt16 => "int16"
  | .kInt32 => "int32"
  | .kInt64 => "int64"
  | .kUint => "uint"
  | .kUint8 => "uint8"
  | .kUint16 => "uint16"
  | .kUint32 => "uint32"
  | .kUint64 => "uint64"
  | .kFloat32 => "float32"
  | .kFloat64 => "float64"
  | .kString => "string"
  | .kPtr => "ptr"
  | .kSlice => "slice"
  | .kStruct => "struct"

/-- A parsed `time.Time` at second resolution (the RFC3339 layout the source
uses carries no sub-second digits, and this model does not track
fractional seconds). `offset` is the zone offset in minutes east of UTC;
offset `0` is rendered `Z`. -/
structure Timestamp where
  year : Nat
  month : Nat
  day : Nat
  hour : Nat
  minute : Nat
  second : Nat
  offset : Int
deriving DecidableEq, Repr

/-! Go values. Each scalar kind is its own constructor; signed integers are
`Int`, unsigned are `Nat` (range maintained by the operations that write
them), and floats are exact rationals (see the `parseFloat` note below).
A pointer is `vPtrNil` (a typed nil) or `vPtrTo` (pointing at a value). -/
mutual
inductive GoVal where
  | vBool (b : Bool)
  | vInt (i : Int)
  | vInt8 (i : Int)
  | vInt16 (i : Int)
  | vInt32 (i : Int)
  | vInt64 (i : Int)
  | vDuration (i : Int)
  | vUint (n : Nat)
  | vUint8 (n : Nat)
  | vUint16 (n : Nat)
  | vUint32 (n : Nat)
  | vUint64 (n : Nat)
  | vFloat32 (q : Rat)
  | vFloat64 (q : Rat)
  | vString (s : String)
  | vTime (t : Timestamp)
  | vPtrNil (elem : GoType)
  | vPtrTo (elem : GoType) (target : GoVal)
  | vSlice (elem : GoType)
  | vStruct (fields : GoVals)
deriving DecidableEq, Repr

inductive GoVals where
  | nil
  | cons (v : GoVal) (rest : GoVals)
deriving DecidableEq, Repr
end

/-! The zero value of a type (`reflect.New(t).Elem()`): `false`, `0`, `""`,
nil pointers, the zero `time.Time` (January 1, year 1, 00:00:00 UTC). -/
mutual
def GoType.zeroVal : GoType → GoVal
  | .bool => .vBool false
  | .int => .vInt 0
  | .int8 => .vInt8 0
  | .int16 => .vInt16 0
  | .int32 => .vInt32 0
  | .int64 => .vInt64 0
  | .duration => .vDuration 0
  | .uint => .vUint 0
  | .uint8 => .vUint8 0
  | .uint16 => .vUint16 0
  | .uint32 => .vUint32 0
  | .uint64 => .vUint64 0
  | .float32 => .vFloat32 0
  | .float64 => .vFloat64 0
  | .string => .vString ""
  | .time => .vTime ⟨1, 1, 1, 0, 0, 0, 0⟩
  | .ptr e => .vPtrNil e
  | .slice e => .vSlice e
  | .struct fs => .vStruct fs.zeroVals

def GoFields.zeroVals : GoFields → GoVals
  | .nil => .nil
  | .cons (.mk _ _ _ _ ty) fs => .cons ty.zeroVal fs.zeroVals
end

def GoFields.length : GoFields → Nat
  | .nil => 0
  | .cons _ fs => fs.length + 1

def GoVals.length : GoVals → Nat
  | .nil => 0
  | .cons _ vs => vs.length + 1

def GoFields.append : GoFields → GoFields → GoFields
  | .nil, gs => gs
  | .cons f fs, gs => .cons f (fs.append gs)

def GoVals.append : GoVals → GoVals → GoVals
  | .nil, ws => ws
  | .cons v vs, ws => .cons v (vs.append ws)

/-! ## The struct walker (`getStructInfo`)

The Go walker mutates the traversed struct in place (nil-pointer
auto-vivification); the embedding threads the updated value through
explicitly, returning it next to the emitted descriptors. -/

/-- `getFieldInfo`: builds the descriptor node for a field under a given
parent, running `parseTag` on the field's annotation (a tag error aborts
the whole traversal). -/
def mkNode (f : GoField) (p : Option FieldNode) : Except GoErr FieldNode :=
  match parseTag f.tag with
  | .error e => .error e
  | .ok t => .ok (FieldNode.make f.name t p)

mutual
/-- The `for i := 0; i < n; i++` loop body of `getStructInfo`, one field at
a time, threading the (possibly vivified) field values. The `cons`/`nil`
mismatch arm is unreachable for well-shaped values. -/
def walkFields (fs : GoFields) (vs : GoVals) (parent : Option FieldNode) :
    Except GoErr (List FieldNode × GoVals) :=
  match fs, vs with
  | .nil, vs => .ok ([], vs)
  | .cons f fs', .cons v vs' =>
    match walkField f v parent with
    | .error e => .error e
    | .ok (ds, v') =>
      match walkFields fs' vs' parent with
      | .error e => .error e
      | .ok (cat, vs'') => .ok (ds ++ cat, .cons v' vs'')
  | .cons _ _, .nil => .error .invalidConfig
termination_by 4 * sizeOf fs + 3

/-- `getStructInfo`'s treatment of one field: skip unexported fields
(`!fv.CanSet()`), treat `time.Time` and `*time.Time` as opaque leaves, and
otherwise resolve the pointer chain. -/
def walkField (f : GoField) (v : GoVal) (parent : Option FieldNode) :
    Except GoErr (List FieldNode × GoVal) :=
  match f with
  | .mk name anon exp tag ty =>
    if exp = false then .ok ([], v)
    else if ty = .time ∨ ty = .ptr .time then
      match mkNode (.mk name anon exp tag ty) parent with
      | .error e => .error e
      | .ok node => .ok ([node], v)
    else walkPtr (.mk name anon exp tag ty) ty v parent
termination_by 4 * sizeOf f + 2

/-- The `for fv.Kind() == reflect.Ptr` loop of `getStructInfo`, followed by
the straight-line code after it. A nil pointer to a non-struct-kind type is
left alone (the loop breaks and the field becomes a leaf); a nil pointer to
a struct-kind type is vivified with `reflect.New(fv.Type().Elem())`; a
non-nil pointer is dereferenced one level. After resolution, a struct-kind
value is recursed into (with the parent re-attached one level up for an
embedded/anonymous field, and no descriptor emitted for the struct field
itself), and anything else is one leaf descriptor. A bare `time.Time`
reached through a multi-level pointer chain has kind `Struct` and is
recursed into; its fields are all unexported, so it contributes no
descriptors. -/
def walkPtr (f : GoField) (τ : GoType) (v : GoVal) (parent : Option FieldNode) :
    Except GoErr (List FieldNode × GoVal) :=
  match τ, v with
  | .ptr ε, .vPtrTo _ w =>
    match walkPtr f ε w parent with
    | .error e => .error e
    | .ok (ds, w') => .ok (ds, .vPtrTo ε w')
  | .ptr ε, _ =>
    if ε.kind = .kStruct then
      match walkPtr f ε ε.zeroVal parent with
      | .error e => .error e
      | .ok (ds, w') => .ok (ds, .vPtrTo ε w')
    else
      match mkNode f parent with
      | .error e => .error e
      | .ok node => .ok ([node], .vPtrNil ε)
  | .struct gs, .vStruct ws =>
    match mkNode f parent with
    | .error e => .error e
    | .ok node =>
      let p := if f.anonymous then parent else some node
      match walkFields gs ws p with
      | .error e => .error e
      | .ok (cat, ws') => .ok (cat, .vStruct ws')
  | .time, v =>
    match mkNode f parent with
    | .error e => .error e
    | .ok _ => .ok ([], v)
  | _, v =>
    match mkNode f parent with
    | .error e => .error e
    | .ok node => .ok ([node], v)
termination_by 4 * sizeOf τ + 1
end

/-- `getStructInfo`'s entry checks: the argument must be a pointer
(`ErrInvalidConfig` otherwise) and its dereference must have struct kind
(`ErrInvalidConfig` otherwise; a nil pointer dereferences to an invalid
value, which also fails). `time.Time` has struct kind but no exported
fields, so a `*time.Time` argument yields an empty catalog. -/
def getStructInfo (τ : GoType) (v : GoVal) (parent : Option FieldNode) :
    Except GoErr (List FieldNode × GoVal) :=
  match τ, v with
  | .ptr (.struct fs), .vPtrTo _ (.vStruct ws) =>
    match walkFields fs ws parent with
    | .error e => .error e
    | .ok (cat, ws') => .ok (cat, .vPtrTo (.struct fs) (.vStruct ws'))
  | .ptr .time, .vPtrTo _ w => .ok ([], .vPtrTo .time w)
  | _, _ => .error .invalidConfig

/-- The catalog-building entry point: `getStructInfo(i, nil)`. -/
def buildCatalog (τ : GoType) (v : GoVal) : Except GoErr (List FieldNode × GoVal) :=
  getStructInfo τ v none

/-- The catalog part of a walk result (`structInfo.fields`), without the
updated value. -/
def catalogOf {α : Type} (r : Except GoErr (List FieldNode × α)) :
    Except GoErr (List FieldNode) :=
  r.map Prod.fst

/-! ## Embeddings of the standard-library literal parsers

`strconv.ParseBool`, `strconv.ParseInt`/`ParseUint` (base 0, i.e. with
auto base detection), `strconv.ParseFloat`, `time.ParseDuration` and
`time.Parse(time.RFC3339, ·)`, at the granularity the source exercises:

* integer-literal underscores (`"1_0"`), accepted by the `strconv` parsers
  when base is 0, are not modelled (they parse as syntax errors here);
* `ParseFloat` is modelled exactly over the rationals: decimal and
  scientific forms evaluate without IEEE-754 rounding, and the overflow,
  `Inf`/`NaN` and hexadecimal-float cases are not modelled;
* `ParseDuration`'s fractional part is accumulated in exact integer
  arithmetic where Go uses `float64`;
* RFC3339 parsing is at whole-second resolution: a fractional-second
  suffix is not modelled (it parses as an error here).

Error values carry a message; the coercer propagates them untranslated
(`GoErr.parseFailure`). -/

/-- `%q`-style quoting for error messages (escaping not modelled). -/
def quoteStr (s : String) : String := "\"" ++ s ++ "\""

/-- One digit character in bases up to 36, as `strconv` accepts them. -/
def charDigit (c : Char) : Option Nat :=
  if '0' ≤ c ∧ c ≤ '9' then some (c.toNat - 48)
  else if 'a' ≤ c ∧ c ≤ 'z' then some (c.toNat - 97 + 10)
  else if 'A' ≤ c ∧ c ≤ 'Z' then some (c.toNat - 65 + 10)
  else none

/-- The digit-accumulation loop of `strconv.ParseUint`: `none` on any
character that is not a digit of the base. The accumulation is exact, and
the caller applies the range check; this classifies inputs into
syntax/range/ok exactly as Go's incremental cutoff checks do. -/
def parseUintDigits (base : Nat) (cs : List Char) : Option Nat :=
  cs.foldl
    (fun acc c =>
      acc.bind fun n =>
        match charDigit c with
        | some d => if d < base then some (n * base + d) else none
        | none => none)
    (some 0)

/-- `strconv.ParseUint(s, 0, bitSize)`: base auto-detection from a `0b` /
`0o` / `0x` prefix (needing at least one character after it), a bare
leading `0` meaning octal, else decimal. -/
def goParseUint (s : String) (bitSize : Nat) : Except String Nat :=
  let synErr := "strconv.ParseUint: parsing " ++ quoteStr s ++ ": invalid syntax"
  let rangeErr := "strconv.ParseUint: parsing " ++ quoteStr s ++ ": value out of range"
  match s.data with
  | [] => .error synErr
  | c :: rest =>
    let (base, ds) :=
      if c = '0' then
        match rest with
        | c2 :: c3 :: rest' =>
          if c2 = 'b' ∨ c2 = 'B' then (2, c3 :: rest')
          else if c2 = 'o' ∨ c2 = 'O' then (8, c3 :: rest')
          else if c2 = 'x' ∨ c2 = 'X' then (16, c3 :: rest')
          else (8, c2 :: c3 :: rest')
        | rest => (8, rest)
      else (10, c :: rest)
    match parseUintDigits base ds with
    | none => .error synErr
    | some n => if n > 2 ^ bitSize - 1 then .error rangeErr else .ok n

/-- `strconv.ParseInt(s, 0, bitSize)`: optional sign, then the unsigned
parse, then the signed range check. -/
def goParseInt (s : String) (bitSize : Nat) : Except String Int :=
  let synErr := "strconv.ParseInt: parsing " ++ quoteStr s ++ ": invalid syntax"
  let rangeErr := "strconv.ParseInt: parsing " ++ quoteStr s ++ ": value out of range"
  match s.data with
  | [] => .error synErr
  | c :: rest =>
    let (neg, ds) :=
      if c = '+' then (false, rest)
      else if c = '-' then (true, rest)
      else (false, c :: rest)
    match goParseUint ⟨ds⟩ 64 with
    | .error e =>
      -- a range failure of the inner unsigned parse is out of signed range
      -- a fortiori; a syntax failure is reported as ParseInt syntax
      if e = "strconv.ParseUint: parsing " ++ quoteStr ⟨ds⟩ ++ ": value out of range"
      then .error rangeErr else .error synErr
    | .ok un =>
      if neg then
        if un > 2 ^ (bitSize - 1) then .error rangeErr else .ok (-(un : Int))
      else
        if un ≥ 2 ^ (bitSize - 1) then .error rangeErr else .ok (un : Int)

/-- `strconv.ParseBool`. -/
def goParseBool (s : String) : Except String Bool :=
  if s = "1" ∨ s = "t" ∨ s = "T" ∨ s = "true" ∨ s = "TRUE" ∨ s = "True" then .ok true
  else if s = "0" ∨ s = "f" ∨ s = "F" ∨ s = "false" ∨ s = "FALSE" ∨ s = "False" then .ok false
  else .error ("strconv.ParseBool: parsing " ++ quoteStr s ++ ": invalid syntax")

/-- Leading run of decimal digits and the remainder. -/
def takeDigits : List Char → List Char × List Char
  | [] => ([], [])
  | c :: cs =>
    if c.isDigit then
      match takeDigits cs with
      | (ds, r) => (c :: ds, r)
    else ([], c :: cs)

/-- Value of a run of decimal digits. -/
def digitsVal (ds : List Char) : Nat :=
  ds.foldl (fun n c => n * 10 + (c.toNat - 48)) 0

/-- `strconv.ParseFloat(s, 64)` over exact rationals: `[+-]?` digits, an
optional `.` with further digits (at least one digit in the mantissa
overall), and an optional `e`/`E` exponent with its own optional sign and
at least one digit. -/
def goParseFloat (s : String) : Except String Rat :=
  let synErr := "strconv.ParseFloat: parsing " ++ quoteStr s ++ ": invalid syntax"
  match s.data with
  | [] => .error synErr
  | c :: rest =>
    let (neg, cs) :=
      if c = '+' then (false, rest)
      else if c = '-' then (true, rest)
      else (false, c :: rest)
    match takeDigits cs with
    | (ip, cs1) =>
      let (fp, cs2) :=
        match cs1 with
        | [] => (([] : List Char), ([] : List Char))
        | c1 :: r => if c1 = '.' then takeDigits r else ([], c1 :: r)
      if ip = [] ∧ fp = [] then .error synErr
      else
        let mant : Rat := (digitsVal ip : Rat) + (digitsVal fp : Rat) / (10 : Rat) ^ fp.length
        let signed : Rat := if neg then -mant else mant
        match cs2 with
        | [] => .ok signed
        | e :: cs3 =>
          if e = 'e' ∨ e = 'E' then
            let (eneg, cs4) :=
              match cs3 with
              | [] => (false, ([] : List Char))
              | c2 :: r =>
                if c2 = '+' then (false, r)
                else if c2 = '-' then (true, r)
                else (false, c2 :: r)
            match takeDigits cs4 with
            | ([], _) => .error synErr
            | (eds, []) =>
              let ex := digitsVal eds
              .ok (if eneg then signed / (10 : Rat) ^ ex else signed * (10 : Rat) ^ ex)
            | (_, _ :: _) => .error synErr
          else .error synErr

/-- `time.ParseDuration`'s `leadingFraction`: digits after the decimal
point, accumulated until the value would exceed `2^63` (further digits are
consumed but ignored), with the scale of the kept digits. -/
def leadingFractionAux : List Char → Nat → Nat → Bool → Nat × Nat × List Char
  | [], x, scale, _ => (x, scale, [])
  | c :: cs, x, scale, ov =>
    if c.isDigit then
      if ov then leadingFractionAux cs x scale ov
      else if x > (2 ^ 63 - 1) / 10 then leadingFractionAux cs x scale true
      else
        let y := x * 10 + (c.toNat - 48)
        if y > 2 ^ 63 then leadingFractionAux cs x scale true
        else leadingFractionAux cs y (scale * 10) false
    else (x, scale, c :: cs)

/-- Unit suffix table of `time.ParseDuration`. -/
def unitValue (u : List Char) : Option Nat :=
  if u = ['n', 's'] then some 1
  else if u = ['u', 's'] then some 1000
  else if u = ['µ', 's'] then some 1000
  else if u = ['μ', 's'] then some 1000
  else if u = ['m', 's'] then some 1000000
  else if u = ['s'] then some 1000000000
  else if u = ['m'] then some 60000000000
  else if u = ['h'] then some 3600000000000
  else none

/-- The unit characters: everything up to the next digit or `.`. -/
def takeUnit : List Char → List Char × List Char
  | [] => ([], [])
  | c :: cs =>
    if c = '.' ∨ c.isDigit then ([], c :: cs)
    else
      match takeUnit cs with
      | (u, r) => (c :: u, r)

/-- The term loop of `time.ParseDuration`: one `[0-9]*(\.[0-9]*)?unit`
term per iteration, accumulated into `d ≤ 2^63` nanoseconds. Each
iteration consumes at least one character, so fuel `length + 1` never runs
out. -/
def durationLoop (msg : String) : Nat → List Char → Nat → Except String Nat
  | 0, _, _ => .error msg
  | _, [], d => .ok d
  | fuel + 1, c :: cs, d =>
    if ¬(c = '.' ∨ c.isDigit) then .error msg
    else
      match takeDigits (c :: cs) with
      | (ds, rest) =>
        let v := digitsVal ds
        if v > 2 ^ 63 then .error msg
        else
          let pre := !ds.isEmpty
          let (f, scale, rest2, post) :=
            match rest with
            | [] => (0, 1, ([] : List Char), false)
            | r1 :: r =>
              if r1 = '.' then
                match leadingFractionAux r 0 1 false with
                | (x, sc, r2) => (x, sc, r2, r2.length != r.length)
              else (0, 1, r1 :: r, false)
          if !pre && !post then .error msg
          else
            match takeUnit rest2 with
            | (ucs, rest3) =>
              match unitValue ucs with
              | none => .error msg
              | some unit =>
                if v > 2 ^ 63 / unit then .error msg
                else
                  let v := v * unit + f * unit / scale
                  if v > 2 ^ 63 then .error msg
                  else
                    let d := d + v
                    if d > 2 ^ 63 then .error msg
                    else durationLoop msg fuel rest3 d

/-- `time.ParseDuration`: optional sign, the `"0"` special case, then the
term loop; a positive total above `2^63 - 1` nanoseconds is out of range,
while `-2^63` is representable. -/
def goParseDuration (s : String) : Except String Int :=
  let msg := "time: invalid duration " ++ quoteStr s
  match s.data with
  | [] => .error msg
  | c :: cs =>
    let (neg, cs2) :=
      if c = '-' then (true, cs)
      else if c = '+' then (false, cs)
      else (false, c :: cs)
    if cs2 = ['0'] then .ok 0
    else if cs2.isEmpty then .error msg
    else
      match durationLoop msg (cs2.length + 1) cs2 0 with
      | .error e => .error e
      | .ok d =>
        if neg then .ok (-(d : Int))
        else if d > 2 ^ 63 - 1 then .error msg
        else .ok (d : Int)

/-- Numeric value of a decimal digit character. -/
def dval (c : Char) : Nat := c.toNat - 48

def isLeapYear (y : Nat) : Bool := y % 4 = 0 ∧ (y % 100 ≠ 0 ∨ y % 400 = 0)

/-- Days in a month, as Go's date validation computes it. -/
def daysIn (m y : Nat) : Nat :=
  if m = 2 then (if isLeapYear y then 29 else 28)
  else if m = 4 ∨ m = 6 ∨ m = 9 ∨ m = 11 then 30
  else 31

/-- The `Z07:00` part of the RFC3339 layout: `Z`, or a sign and `hh:mm`
with `hh ≤ 23`, `mm ≤ 59`, as minutes east of UTC (positional byte checks,
as Go's parser performs them). -/
def parseOffset : List Char → Option Int
  | [z] => if z = 'Z' then some 0 else none
  | [sg, h1, h2, cl, m1, m2] =>
    if (sg = '+' ∨ sg = '-') ∧ cl = ':' ∧ h1.isDigit ∧ h2.isDigit ∧ m1.isDigit ∧ m2.isDigit
    then
      let hh := dval h1 * 10 + dval h2
      let mm := dval m1 * 10 + dval m2
      if hh ≤ 23 ∧ mm ≤ 59 then
        let off : Int := (hh * 60 + mm : Nat)
        some (if sg = '-' then -off else off)
      else none
    else none
  | _ => none

/-- `time.Parse(time.RFC3339, s)` at whole-second resolution: the fixed
`2006-01-02T15:04:05Z07:00` shape, checked positionally, with all
components range-checked (the day against the month's length, leap years
included). -/
def goParseRFC3339 (str : String) : Except String Timestamp :=
  let msg := "parsing time " ++ quoteStr str ++ " as RFC3339: cannot parse"
  match str.data with
  | y1 :: y2 :: y3 :: y4 :: q1 :: o1 :: o2 :: q2 :: a1 :: a2 :: q3 ::
      h1 :: h2 :: q4 :: n1 :: n2 :: q5 :: s1 :: s2 :: rest =>
    if q1 = '-' ∧ q2 = '-' ∧ q3 = 'T' ∧ q4 = ':' ∧ q5 = ':' ∧
        [y1, y2, y3, y4, o1, o2, a1, a2, h1, h2, n1, n2, s1, s2].all Char.isDigit then
      let y := dval y1 * 1000 + dval y2 * 100 + dval y3 * 10 + dval y4
      let mo := dval o1 * 10 + dval o2
      let dd := dval a1 * 10 + dval a2
      let hh := dval h1 * 10 + dval h2
      let mi := dval n1 * 10 + dval n2
      let ss := dval s1 * 10 + dval s2
      if 1 ≤ mo ∧ mo ≤ 12 ∧ 1 ≤ dd ∧ dd ≤ daysIn mo y ∧ hh ≤ 23 ∧ mi ≤ 59 ∧ ss ≤ 59 then
        match parseOffset rest with
        | some off => .ok ⟨y, mo, dd, hh, mi, ss, off⟩
        | none => .error msg
      else .error msg
    else .error msg
  | _ => .error msg

/-! ## The coercion engine (`setFieldValue`, `setPtrValue`, `setSliceValue`)

`coerce` writes into the destination and/or returns an error;
`reflect.Value.Set` with a value whose type is not assignable to the
destination's type panics. The three outcomes are reified in
`CoerceResult`: `ok v` (nil error, destination now `v`), `err e v`
(error `e` returned, destination now `v` — unchanged unless a write
happened before the error), and `panicked dest assigned` (the
`reflect.Value.Set` panic, recording the destination type and the type of
the value being assigned). -/

inductive CoerceResult where
  | ok (v : GoVal)
  | err (e : GoErr) (v : GoVal)
  | panicked (dest assigned : GoType)
deriving DecidableEq, Repr

/-- The destination's value after the call, when it did not panic. -/
def CoerceResult.finalVal : CoerceResult → Option GoVal
  | .ok v => some v
  | .err _ v => some v
  | .panicked _ _ => none

/-- Two's-complement wrap to `w` bits, the store semantics of
`reflect.Value.SetInt` into a narrower field. -/
def wrapSigned (w : Nat) (i : Int) : Int :=
  (i + 2 ^ (w - 1)) % 2 ^ w - 2 ^ (w - 1)

/-- `reflect.Value.SetInt` on a destination of type `τ` (kind
`Int`/`Int8`/`Int16`/`Int32`): stores with truncation to the
destination's width (`int` is 64-bit on the modelled platform). -/
def setIntVal (τ : GoType) (i : Int) : GoVal :=
  match τ.kind with
  | .kInt8 => .vInt8 (wrapSigned 8 i)
  | .kInt16 => .vInt16 (wrapSigned 16 i)
  | .kInt32 => .vInt32 (wrapSigned 32 i)
  | _ => .vInt (wrapSigned 64 i)

/-- `reflect.Value.SetUint` on a destination of kind
`Uint`/`Uint8`/`Uint16`/`Uint32`. -/
def setUintVal (τ : GoType) (n : Nat) : GoVal :=
  match τ.kind with
  | .kUint8 => .vUint8 (n % 2 ^ 8)
  | .kUint16 => .vUint16 (n % 2 ^ 16)
  | .kUint32 => .vUint32 (n % 2 ^ 32)
  | _ => .vUint (n % 2 ^ 64)

/-- `reflect.Value.SetFloat` on a float destination; the `float64` →
`float32` narrowing is the identity in the exact-rational model. -/
def setFloatVal (τ : GoType) (q : Rat) : GoVal :=
  match τ.kind with
  | .kFloat32 => .vFloat32 q
  | _ => .vFloat64 q

/-- `reflect.Value.Set`: succeeds when the assigned value's type is the
destination's type, panics otherwise (for the pointer types involved here,
Go assignability is type identity). -/
def goSet (dest assigned : GoType) (nv _old : GoVal) : CoerceResult :=
  if dest = assigned then .ok nv else .panicked dest assigned

/-- `setSliceValue`: the documented `// TODO` no-op, returning a nil error
without touching the destination. -/
def setSliceValue (val : GoVal) (_τ : GoType) (_v : String) : CoerceResult :=
  .ok val

/-- `setPtrValue`: each arm parses, then assigns the address of the parse
result — a `*int64`, `*uint64` or `*float64` for the whole corresponding
kind group — via `reflect.Value.Set`. -/
def setPtrValue (val : GoVal) (τ : GoType) (v : String) : CoerceResult :=
  match τ with
  | .ptr ε =>
    match ε.kind with
    | .kBool =>
      match goParseBool v with
      | .error e => .err (.parseFailure e) val
      | .ok b => goSet τ (.ptr .bool) (.vPtrTo .bool (.vBool b)) val
    | .kInt | .kInt8 | .kInt16 | .kInt32 =>
      match goParseInt v 64 with
      | .error e => .err (.parseFailure e) val
      | .ok i => goSet τ (.ptr .int64) (.vPtrTo .int64 (.vInt64 i)) val
    | .kInt64 =>
      -- `typ == durationType` compares the *pointer* type with
      -- `time.Duration`, so it never holds here
      if τ = .duration then
        match goParseDuration v with
        | .error e => .err (.parseFailure e) val
        | .ok i => goSet τ (.ptr .duration) (.vPtrTo .duration (.vDuration i)) val
      else
        match goParseInt v 64 with
        | .error e => .err (.parseFailure e) val
        | .ok i => goSet τ (.ptr .int64) (.vPtrTo .int64 (.vInt64 i)) val
    | .kUint | .kUint8 | .kUint16 | .kUint32 =>
      match goParseUint v 64 with
      | .error e => .err (.parseFailure e) val
      | .ok n => goSet τ (.ptr .uint64) (.vPtrTo .uint64 (.vUint64 n)) val
    | .kUint64 =>
      match goParseUint v 64 with
      | .error e => .err (.parseFailure e) val
      | .ok n => goSet τ (.ptr .uint64) (.vPtrTo .uint64 (.vUint64 n)) val
    | .kFloat32 | .kFloat64 =>
      match goParseFloat v with
      | .error e => .err (.parseFailure e) val
      | .ok q => goSet τ (.ptr .float64) (.vPtrTo .float64 (.vFloat64 q)) val
    | .kString => goSet τ (.ptr .string) (.vPtrTo .string (.vString v)) val
    | .kStruct =>
      if τ = .ptr .time then
        match goParseRFC3339 v with
        | .error e => .err (.parseFailure e) val
        | .ok t =>
          match goSet τ (.ptr .time) (.vPtrTo .time (.vTime t)) val with
          | .ok nv => .err (.unsupported "setPtrValue" (GoKind.string τ.kind)) nv
          | r => r
      else .err (.unsupported "setPtrValue" (GoKind.string τ.kind)) val
    | _ => .err (.unsupported "setPtrValue" (GoKind.string τ.kind)) val
  | _ => .err (.unsupported "setPtrValue" (GoKind.string τ.kind)) val

/-- `setFieldValue`. -/
def setFieldValue (val : GoVal) (τ : GoType) (v : String) : CoerceResult :=
  match τ.kind with
  | .kBool =>
    match goParseBool v with
    | .error e => .err (.parseFailure e) val
    | .ok b => .ok (.vBool b)
  | .kInt | .kInt8 | .kInt16 | .kInt32 =>
    match goParseInt v 64 with
    | .error e => .err (.parseFailure e) val
    | .ok i => .ok (setIntVal τ i)
  | .kInt64 =>
    if τ = .duration then
      match goParseDuration v with
      | .error e => .err (.parseFailure e) val
      | .ok i => .ok (.vDuration (wrapSigned 64 i))
    else
      match goParseInt v 64 with
      | .error e => .err (.parseFailure e) val
      | .ok i => .ok (.vInt64 (wrapSigned 64 i))
  | .kUint | .kUint8 | .kUint16 | .kUint32 =>
    match goParseUint v 64 with
    | .error e => .err (.parseFailure e) val
    | .ok n => .ok (setUintVal τ n)
  | .kUint64 =>
    match goParseUint v 64 with
    | .error e => .err (.parseFailure e) val
    | .ok n => .ok (.vUint64 (n % 2 ^ 64))
  | .kFloat32 | .kFloat64 =>
    match goParseFloat v with
    | .error e => .err (.parseFailure e) val
    | .ok q => .ok (setFloatVal τ q)
  | .kString => .ok (.vString v)
  | .kPtr => setPtrValue val τ v
  | .kSlice => setSliceValue val τ v
  | .kStruct =>
    if τ = .time then
      match goParseRFC3339 v with
      | .error e => .err (.parseFailure e) val
      | .ok t =>
        -- the parsed time is stored, and then control falls through to the
        -- unconditional UnsupportedType return below the `if`
        .err (.unsupported "setFieldValue" (GoKind.string τ.kind)) (.vTime t)
    else .err (.unsupported "setFieldValue" (GoKind.string τ.kind)) val

/-! ## Canonical string forms

The round-trip property quantifies over "the canonical string form of a
value": these are the standard renderings — decimal digits for integers
(`strconv.FormatInt(i, 10)`), `true`/`false` for booleans, the integer
nanosecond count with the `ns` unit for durations, scientific notation for
exact decimal floats, and `time.Time.Format(time.RFC3339)` for
timestamps. -/

/-- Decimal digits of `n`, most significant first. -/
def natToDigits (n : Nat) : List Char :=
  if h : n < 10 then [Char.ofNat (48 + n)]
  else natToDigits (n / 10) ++ [Char.ofNat (48 + n % 10)]
termination_by n
decreasing_by
  exact Nat.div_lt_self (by omega) (by omega)

/-- Decimal rendering of a natural number. -/
def formatNat (n : Nat) : String := ⟨natToDigits n⟩

/-- Decimal rendering of an integer (`strconv.FormatInt(i, 10)`). -/
def formatInt (i : Int) : String :=
  if i < 0 then "-" ++ formatNat i.natAbs else formatNat i.natAbs

/-- `strconv.FormatBool`. -/
def formatBool (b : Bool) : String := if b then "true" else "false"

/-- Two-digit zero-padded rendering (`n < 100`). -/
def pad2 (n : Nat) : List Char := [Char.ofNat (48 + n / 10), Char.ofNat (48 + n % 10)]

/-- Four-digit zero-padded rendering (`n < 10000`). -/
def pad4 (n : Nat) : List Char :=
  [Char.ofNat (48 + n / 1000), Char.ofNat (48 + n / 100 % 10),
   Char.ofNat (48 + n / 10 % 10), Char.ofNat (48 + n % 10)]

/-- The `Z07:00` rendering of a zone offset given in minutes. -/
def offsetChars (off : Int) : List Char :=
  if off = 0 then ['Z']
  else (if off < 0 then '-' else '+') :: (pad2 (off.natAbs / 60) ++ ':' :: pad2 (off.natAbs % 60))

/-- `t.Format(time.RFC3339)` for a whole-second time. -/
def formatRFC3339 (t : Timestamp) : String :=
  ⟨pad4 t.year ++ '-' :: (pad2 t.month ++ '-' :: (pad2 t.day ++ 'T' ::
    (pad2 t.hour ++ ':' :: (pad2 t.minute ++ ':' :: (pad2 t.second ++ offsetChars t.offset)))))⟩

/-- Component validity of a timestamp, as Go's RFC3339 parser checks it. -/
def Timestamp.valid (t : Timestamp) : Prop :=
  t.year ≤ 9999 ∧ 1 ≤ t.month ∧ t.month ≤ 12 ∧ 1 ≤ t.day ∧ t.day ≤ daysIn t.month t.year ∧
    t.hour ≤ 23 ∧ t.minute ≤ 59 ∧ t.second ≤ 59 ∧ t.offset.natAbs ≤ 23 * 60 + 59

instance (t : Timestamp) : Decidable t.valid := by
  unfold Timestamp.valid; infer_instance

/-! ## Helper lemmas on the string primitives -/

theorem goHasPrefix_iff (s p : String) : goHasPrefix s p = true ↔ p.data <+: s.data := by
  simp [goHasPrefix, List.isPrefixOf_iff_prefix]

theorem goHasPrefix_of_trans (s p q : String) (hpq : p.data <+: q.data)
    (h : goHasPrefix s q = true) : goHasPrefix s p = true := by
  rw [goHasPrefix_iff] at h ⊢
  exact hpq.trans h

theorem goHasPrefix_append (p x : String) : goHasPrefix (p ++ x) p = true := by
  rw [goHasPrefix_iff, String.data_append]
  exact List.prefix_append _ _

theorem goTrimPrefix_append (p x : String) : goTrimPrefix (p ++ x) p = x := by
  unfold goTrimPrefix
  rw [if_pos (goHasPrefix_append p x), String.data_append, List.drop_left]

theorem goHasPrefix_head (s p : String) (c : Char) (cs : List Char)
    (hp : p.data = c :: cs) (h : goHasPrefix s p = true) : ∃ t, s.data = c :: t := by
  rw [goHasPrefix_iff, hp] at h
  obtain ⟨t, ht⟩ := h
  exact ⟨cs ++ t, by rw [← ht]; rfl⟩

theorem goHasPrefix_disjoint (s p q : String) (c d : Char) (cp cq : List Char)
    (hp : p.data = c :: cp) (hq : q.data = d :: cq) (hcd : c ≠ d)
    (h : goHasPrefix s p = true) : goHasPrefix s q = false := by
  obtain ⟨t, ht⟩ := goHasPrefix_head s p c cp hp h
  cases hqq : goHasPrefix s q with
  | false => rfl
  | true =>
    obtain ⟨u, hu⟩ := goHasPrefix_head s q d cq hq hqq
    rw [ht] at hu
    exact absurd (List.head_eq_of_cons_eq hu) hcd

/-! ## Characterization of tag parsing -/

theorem applyToken_ok {t t₁ : tagInfo} {s : String} (h : applyToken t s = .ok t₁) :
    t₁.hasENV = (t.hasENV || goHasPrefix s "env") ∧
    t₁.env = (if goHasPrefix s "env=" then goTrimPrefix s "env=" else t.env) ∧
    t₁.hasFlag = (t.hasFlag || goHasPrefix s "flag") ∧
    t₁.flag = (if goHasPrefix s "flag=" then goTrimPrefix s "flag=" else t.flag) ∧
    t₁.hasDefault = (t.hasDefault || goHasPrefix s "default") ∧
    t₁.defVal = (if goHasPrefix s "default=" then goTrimPrefix s "default=" else t.defVal) := by
  have envOfEq : goHasPrefix s "env=" = true → goHasPrefix s "env" = true :=
    goHasPrefix_of_trans s "env" "env=" (by decide)
  have flagOfEq : goHasPrefix s "flag=" = true → goHasPrefix s "flag" = true :=
    goHasPrefix_of_trans s "flag" "flag=" (by decide)
  have defOfEq : goHasPrefix s "default=" = true → goHasPrefix s "default" = true :=
    goHasPrefix_of_trans s "default" "default=" (by decide)
  unfold applyToken at h
  by_cases he : goHasPrefix s "env" = true
  · have hf : goHasPrefix s "flag" = false :=
      goHasPrefix_disjoint s "env" "flag" 'e' 'f' _ _ rfl rfl (by decide) he
    have hd : goHasPrefix s "default" = false :=
      goHasPrefix_disjoint s "env" "default" 'e' 'd' _ _ rfl rfl (by decide) he
    have hf2 : goHasPrefix s "flag=" = false := by
      cases h2 : goHasPrefix s "flag=" with
      | false => rfl
      | true => rw [flagOfEq h2] at hf; cases hf
    have hd2 : goHasPrefix s "default=" = false := by
      cases h2 : goHasPrefix s "default=" with
      | false => rfl
      | true => rw [defOfEq h2] at hd; cases hd
    rw [if_pos he] at h
    unfold parseENV at h
    by_cases hev : goHasPrefix s "env=" = true
    · rw [if_pos hev] at h
      by_cases hemp : goTrimPrefix s "env=" = ""
      · simp only [hemp, if_pos] at h
        cases h
      · rw [if_neg hemp] at h
        cases h
        simp [he, hev, hf, hd, hf2, hd2]
    · rw [if_neg hev] at h
      cases h
      simp [he, hev, hf, hd, hf2, hd2]
  · by_cases hfl : goHasPrefix s "flag" = true
    · have he' : goHasPrefix s "env" = false := by
        cases h2 : goHasPrefix s "env" with
        | false => rfl
        | true => exact absurd h2 he
      have hd : goHasPrefix s "default" = false :=
        goHasPrefix_disjoint s "flag" "default" 'f' 'd' _ _ rfl rfl (by decide) hfl
      have he2 : goHasPrefix s "env=" = false := by
        cases h2 : goHasPrefix s "env=" with
        | false => rfl
        | true => rw [envOfEq h2] at he'; cases he'
      have hd2 : goHasPrefix s "default=" = false := by
        cases h2 : goHasPrefix s "default=" with
        | false => rfl
        | true => rw [defOfEq h2] at hd; cases hd
      rw [if_neg he, if_pos hfl] at h
      unfold parseFlag at h
      by_cases hfv : goHasPrefix s "flag=" = true
      · rw [if_pos hfv] at h
        by_cases hemp : goTrimPrefix s "flag=" = ""
        · simp only [hemp, if_pos] at h
          cases h
        · rw [if_neg hemp] at h
          cases h
          simp [he', hfl, hfv, hd, he2, hd2]
      · rw [if_neg hfv] at h
        cases h
        simp [he', hfl, hfv, hd, he2, hd2]
    · by_cases hdf : goHasPrefix s "default" = true
      · have he' : goHasPrefix s "env" = false := by
          cases h2 : goHasPrefix s "env" with
          | false => rfl
          | true => exact absurd h2 he
        have hf' : goHasPrefix s "flag" = false := by
          cases h2 : goHasPrefix s "flag" with
          | false => rfl
          | true => exact absurd h2 hfl
        have he2 : goHasPrefix s "env=" = false := by
          cases h2 : goHasPrefix s "env=" with
          | false => rfl
          | true => rw [envOfEq h2] at he'; cases he'
        have hf2 : goHasPrefix s "flag=" = false := by
          cases h2 : goHasPrefix s "flag=" with
          | false => rfl
          | true => rw [flagOfEq h2] at hf'; cases hf'
        rw [if_neg he, if_neg hfl, if_pos hdf] at h
        unfold parseDefault at h
        by_cases hdv : goHasPrefix s "default=" = true
        · rw [if_pos hdv] at h
          by_cases hemp : goTrimPrefix s "default=" = ""
          · simp only [hemp, if_pos] at h
            cases h
          · rw [if_neg hemp] at h
            cases h
            simp [he', hf', hdf, hdv, he2, hf2]
        · rw [if_neg hdv] at h
          cases h
          simp [he', hf', hdf, hdv, he2, hf2]
      · have he' : goHasPrefix s "env" = false := by
          cases h2 : goHasPrefix s "env" with
          | false => rfl
          | true => exact absurd h2 he
        have hf' : goHasPrefix s "flag" = false := by
          cases h2 : goHasPrefix s "flag" with
          | false => rfl
          | true => exact absurd h2 hfl
        have hd' : goHasPrefix s "default" = false := by
          cases h2 : goHasPrefix s "default" with
          | false => rfl
          | true => exact absurd h2 hdf
        have he2 : goHasPrefix s "env=" = false := by
          cases h2 : goHasPrefix s "env=" with
          | false => rfl
          | true => rw [envOfEq h2] at he'; cases he'
        have hf2 : goHasPrefix s "flag=" = false := by
          cases h2 : goHasPrefix s "flag=" with
          | false => rfl
          | true => rw [flagOfEq h2] at hf'; cases hf'
        have hd2 : goHasPrefix s "default=" = false := by
          cases h2 : goHasPrefix s "default=" with
          | false => rfl
          | true => rw [defOfEq h2] at hd'; cases hd'
        rw [if_neg he, if_neg hfl, if_neg hdf] at h
        cases h
        simp [he', hf', hd', he2, hf2, hd2]

theorem parseTagTokens_ok {toks : List String} {t t' : tagInfo}
    (h : parseTagTokens t toks = .ok t') :
    t'.hasENV = toks.foldl (fun acc s => acc || goHasPrefix s "env") t.hasENV ∧
    t'.env = toks.foldl
      (fun acc s => if goHasPrefix s "env=" then goTrimPrefix s "env=" else acc) t.env ∧
    t'.hasFlag = toks.foldl (fun acc s => acc || goHasPrefix s "flag") t.hasFlag ∧
    t'.flag = toks.foldl
      (fun acc s => if goHasPrefix s "flag=" then goTrimPrefix s "flag=" else acc) t.flag ∧
    t'.hasDefault = toks.foldl (fun acc s => acc || goHasPrefix s "default") t.hasDefault ∧
    t'.defVal = toks.foldl
      (fun acc s => if goHasPrefix s "default=" then goTrimPrefix s "default=" else acc)
      t.defVal := by
  induction toks generalizing t with
  | nil =>
    unfold parseTagTokens at h
    cases h
    simp
  | cons s rest ih =>
    unfold parseTagTokens at h
    cases happ : applyToken t s with
    | error e => rw [happ] at h; cases h
    | ok t₁ =>
      rw [happ] at h
      simp only [Except.bind] at h
      obtain ⟨h1, h2, h3, h4, h5, h6⟩ := applyToken_ok happ
      obtain ⟨g1, g2, g3, g4, g5, g6⟩ := ih h
      rw [h1] at g1
      rw [h2] at g2
      rw [h3] at g3
      rw [h4] at g4
      rw [h5] at g5
      rw [h6] at g6
      exact ⟨g1, g2, g3, g4, g5, g6⟩

theorem foldl_or_eq_any (p : String → Bool) (l : List String) (b : Bool) :
    l.foldl (fun acc s => acc || p s) b = (b || l.any p) := by
  induction l generalizing b with
  | nil => simp
  | cons s rest ih => simp [ih, Bool.or_assoc]

theorem parseTagTokens_cons (t : tagInfo) (s : String) (rest : List String) :
    parseTagTokens t (s :: rest) = (applyToken t s).bind (fun t' => parseTagTokens t' rest) :=
  rfl

/-! ## Claims C3, C7, C8, C5 -/

/-- C3 counterexample: in `"env=FOO,env"` the `env` family appears twice and
the final occurrence is the bare form, whose value alone is the
empty/derive-automatically value; yet parsing yields the explicit value
`"FOO"` of the earlier occurrence, not what the final occurrence alone
would produce. -/
theorem C3_counterexample :
    parseTag "env=FOO,env" = .ok { hasENV := true, env := "FOO" } ∧
    parseTag "env" = .ok { hasENV := true } ∧
    ({ hasENV := true, env := "FOO" } : tagInfo) ≠ { hasENV := true } := by
  exact ⟨by decide, by decide, by decide⟩

/-- C3 (amended): when a directive family appears more than once in one
annotation string, parsing still succeeds and later occurrences overwrite
earlier ones as follows: the family's has-boolean is set iff the family
appears at all, and the explicit value is that of the last occurrence in
the `=VALUE` form — a later bare occurrence sets the boolean but leaves an
earlier explicit value in place. -/
theorem C3_last_write_wins (tagStr : String) (t' : tagInfo)
    (h : parseTag tagStr = .ok t') :
    (t'.hasENV = (goSplit tagStr ',').any (fun s => goHasPrefix s "env") ∧
      t'.env = (goSplit tagStr ',').foldl
        (fun acc s => if goHasPrefix s "env=" then goTrimPrefix s "env=" else acc) "") ∧
    (t'.hasFlag = (goSplit tagStr ',').any (fun s => goHasPrefix s "flag") ∧
      t'.flag = (goSplit tagStr ',').foldl
        (fun acc s => if goHasPrefix s "flag=" then goTrimPrefix s "flag=" else acc) "") ∧
    (t'.hasDefault = (goSplit tagStr ',').any (fun s => goHasPrefix s "default") ∧
      t'.defVal = (goSplit tagStr ',').foldl
        (fun acc s => if goHasPrefix s "default=" then goTrimPrefix s "default=" else acc) "") := by
  obtain ⟨g1, g2, g3, g4, g5, g6⟩ := parseTagTokens_ok h
  rw [foldl_or_eq_any] at g1 g3 g5
  exact ⟨⟨by simpa using g1, g2⟩, ⟨by simpa using g3, g4⟩, ⟨by simpa using g5, g6⟩⟩

/-- Witness for C3: the amended claim evaluated on `"env=FOO,env"`. -/
theorem C3_last_write_wins_witness :
    (({ hasENV := true, env := "FOO" } : tagInfo).hasENV
        = (goSplit "env=FOO,env" ',').any (fun s => goHasPrefix s "env") ∧
      ({ hasENV := true, env := "FOO" } : tagInfo).env
        = (goSplit "env=FOO,env" ',').foldl
            (fun acc s => if goHasPrefix s "env=" then goTrimPrefix s "env=" else acc) "") ∧
    (({ hasENV := true, env := "FOO" } : tagInfo).hasFlag
        = (goSplit "env=FOO,env" ',').any (fun s => goHasPrefix s "flag") ∧
      ({ hasENV := true, env := "FOO" } : tagInfo).flag
        = (goSplit "env=FOO,env" ',').foldl
            (fun acc s => if goHasPrefix s "flag=" then goTrimPrefix s "flag=" else acc) "") ∧
    (({ hasENV := true, env := "FOO" } : tagInfo).hasDefault
        = (goSplit "env=FOO,env" ',').any (fun s => goHasPrefix s "default") ∧
      ({ hasENV := true, env := "FOO" } : tagInfo).defVal
        = (goSplit "env=FOO,env" ',').foldl
            (fun acc s => if goHasPrefix s "default=" then goTrimPrefix s "default=" else acc)
            "") :=
  C3_last_write_wins "env=FOO,env" { hasENV := true, env := "FOO" } (by decide)

/-- C7 counterexample: the token `"envelope"` is not one of the six
recognized directive forms, yet tag parsing does not leave the directive
set unchanged — prefix dispatch treats it as a bare `env`. -/
theorem C7_counterexample :
    parseTag "envelope" = .ok { hasENV := true } ∧
    ({ hasENV := true } : tagInfo) ≠ ({} : tagInfo) := by
  exact ⟨by decide, by decide⟩

/-- C7 (amended): a token that does not begin with `env`, `flag` or
`default` is silently ignored — it leaves the directive set unchanged and
does not fail, and removing it from the token stream does not change the
parse; a token beginning with one of those prefixes is dispatched to that
family's parser even when it is not one of the six exact forms. -/
theorem C7_unprefixed_token_ignored (t : tagInfo) (s : String) (toks : List String)
    (h1 : goHasPrefix s "env" = false) (h2 : goHasPrefix s "flag" = false)
    (h3 : goHasPrefix s "default" = false) :
    applyToken t s = .ok t ∧ parseTagTokens t (s :: toks) = parseTagTokens t toks := by
  have ha : applyToken t s = .ok t := by
    unfold applyToken
    rw [h1, h2, h3]
    rfl
  refine ⟨ha, ?_⟩
  rw [parseTagTokens_cons, ha]
  rfl

/-- Witness for C7: the amended claim evaluated on the token `"xyz"`. -/
theorem C7_unprefixed_token_ignored_witness :
    applyToken {} "xyz" = .ok {} ∧ parseTagTokens {} ["xyz"] = parseTagTokens {} [] :=
  C7_unprefixed_token_ignored {} "xyz" [] (by decide) (by decide) (by decide)

/-- C8: for each directive family, the `=VALUE` token with an empty VALUE
makes tag parsing fail with the InvalidTagFormat error whose message names
the family's two accepted forms, while `=VALUE` with a non-empty VALUE
succeeds, setting the has-boolean and storing VALUE verbatim. -/
theorem C8_empty_explicit_value_rejected :
    (∀ (t : tagInfo) (rest : List String),
      parseTagTokens t ("env=" :: rest)
        = .error (.invalidTagFormat "either `env` or `env=ENV_KEY` is valid")) ∧
    (∀ (t : tagInfo) (X : String), X ≠ "" →
      applyToken t ("env=" ++ X) = .ok { t with hasENV := true, env := X }) ∧
    (∀ (t : tagInfo) (rest : List String),
      parseTagTokens t ("flag=" :: rest)
        = .error (.invalidTagFormat "either `flag` or `flag=flag-key` is valid")) ∧
    (∀ (t : tagInfo) (X : String), X ≠ "" →
      applyToken t ("flag=" ++ X) = .ok { t with hasFlag := true, flag := X }) ∧
    (∀ (t : tagInfo) (rest : List String),
      parseTagTokens t ("default=" :: rest)
        = .error (.invalidTagFormat "either `default` or `default=value` is valid")) ∧
    (∀ (t : tagInfo) (X : String), X ≠ "" →
      applyToken t ("default=" ++ X) = .ok { t with hasDefault := true, defVal := X }) := by
  have envPre : ∀ X : String, goHasPrefix ("env=" ++ X) "env" = true := fun X =>
    goHasPrefix_of_trans _ "env" "env=" (by decide) (goHasPrefix_append "env=" X)
  have flagPre : ∀ X : String, goHasPrefix ("flag=" ++ X) "flag" = true := fun X =>
    goHasPrefix_of_trans _ "flag" "flag=" (by decide) (goHasPrefix_append "flag=" X)
  have defPre : ∀ X : String, goHasPrefix ("default=" ++ X) "default" = true := fun X =>
    goHasPrefix_of_trans _ "default" "default=" (by decide) (goHasPrefix_append "default=" X)
  have envNotFlag : ∀ X : String, goHasPrefix ("flag=" ++ X) "env" = false := fun X =>
    goHasPrefix_disjoint _ "flag" "env" 'f' 'e' _ _ rfl rfl (by decide) (flagPre X)
  have envNotDef : ∀ X : String, goHasPrefix ("default=" ++ X) "env" = false := fun X =>
    goHasPrefix_disjoint _ "default" "env" 'd' 'e' _ _ rfl rfl (by decide) (defPre X)
  have flagNotDef : ∀ X : String, goHasPrefix ("default=" ++ X) "flag" = false := fun X =>
    goHasPrefix_disjoint _ "default" "flag" 'd' 'f' _ _ rfl rfl (by decide) (defPre X)
  refine ⟨?_, ?_, ?_, ?_, ?_, ?_⟩
  · intro t rest
    unfold parseTagTokens applyToken parseENV
    have h1 : goHasPrefix "env=" "env" = true := by decide
    have h2 : goHasPrefix "env=" "env=" = true := by decide
    have h3 : goTrimPrefix "env=" "env=" = "" := by decide
    rw [h1, if_pos rfl, h2, if_pos rfl, h3]
    rfl
  · intro t X hX
    unfold applyToken parseENV
    rw [envPre X, if_pos rfl, goHasPrefix_append "env=" X, if_pos rfl,
      goTrimPrefix_append "env=" X, if_neg hX]
  · intro t rest
    unfold parseTagTokens applyToken parseFlag
    have h0 : goHasPrefix "flag=" "env" = false := by decide
    have h1 : goHasPrefix "flag=" "flag" = true := by decide
    have h2 : goHasPrefix "flag=" "flag=" = true := by decide
    have h3 : goTrimPrefix "flag=" "flag=" = "" := by decide
    rw [h0, h1, if_pos rfl, h2, if_pos rfl, h3]
    rfl
  · intro t X hX
    unfold applyToken parseFlag
    rw [envNotFlag X, flagPre X]
    simp only [Bool.false_eq_true, if_false, if_pos rfl, goHasPrefix_append "flag=" X,
      goTrimPrefix_append "flag=" X, if_neg hX, if_true]
  · intro t rest
    unfold parseTagTokens applyToken parseDefault
    have h0 : goHasPrefix "default=" "env" = false := by decide
    have h0' : goHasPrefix "default=" "flag" = false := by decide
    have h1 : goHasPrefix "default=" "default" = true := by decide
    have h2 : goHasPrefix "default=" "default=" = true := by decide
    have h3 : goTrimPrefix "default=" "default=" = "" := by decide
    rw [h0, h0', h1, if_pos rfl, h2, if_pos rfl, h3]
    rfl
  · intro t X hX
    unfold applyToken parseDefault
    rw [envNotDef X, flagNotDef X]
    simp only [Bool.false_eq_true, if_false, defPre X, if_pos rfl,
      goHasPrefix_append "default=" X, goTrimPrefix_append "default=" X, if_neg hX, if_true]

/-- Witness for C8: the six clauses evaluated at concrete inputs. -/
theorem C8_empty_explicit_value_rejected_witness :
    parseTagTokens {} ["env="]
        = .error (.invalidTagFormat "either `env` or `env=ENV_KEY` is valid") ∧
    applyToken {} ("env=" ++ "K") = .ok { hasENV := true, env := "K" } ∧
    parseTagTokens {} ["flag="]
        = .error (.invalidTagFormat "either `flag` or `flag=flag-key` is valid") ∧
    applyToken {} ("flag=" ++ "k") = .ok { hasFlag := true, flag := "k" } ∧
    parseTagTokens {} ["default="]
        = .error (.invalidTagFormat "either `default` or `default=value` is valid") ∧
    applyToken {} ("default=" ++ "x") = .ok { hasDefault := true, defVal := "x" } :=
  ⟨C8_empty_explicit_value_rejected.1 {} [],
   C8_empty_explicit_value_rejected.2.1 {} "K" (by decide),
   C8_empty_explicit_value_rejected.2.2.1 {} [],
   C8_empty_explicit_value_rejected.2.2.2.1 {} "k" (by decide),
   C8_empty_explicit_value_rejected.2.2.2.2.1 {} [],
   C8_empty_explicit_value_rejected.2.2.2.2.2 {} "x" (by decide)⟩

theorem FieldNode.tag_make (name : String) (t : tagInfo) (p : Option FieldNode) :
    (FieldNode.make name t p).tag = t := by
  cases p <;> rfl

/-- C5: a descriptor's environment key is the `_`-joined upper-cased
nesting path when `hasEnv` holds with no explicit value, the explicit
value verbatim (regardless of the parent chain) when one was given, and
empty when `hasEnv` is false; the flag key follows the symmetric rule with
`-` join and lower-casing, derived only when `hasFlag` holds. -/
theorem C5_key_derivation (name : String) (tg : tagInfo) (p : Option FieldNode) :
    (tg.hasENV = true → tg.env = "" →
      (FieldNode.make name tg p).ENVKey
        = goToUpper (goJoin (FieldNode.make name tg p).path "_")) ∧
    (tg.hasENV = true → tg.env ≠ "" → (FieldNode.make name tg p).ENVKey = tg.env) ∧
    (tg.hasENV = false → (FieldNode.make name tg p).ENVKey = "") ∧
    (tg.hasFlag = true → tg.flag = "" →
      (FieldNode.make name tg p).FlagKey
        = goToLower (goJoin (FieldNode.make name tg p).path "-")) ∧
    (tg.hasFlag = true → tg.flag ≠ "" → (FieldNode.make name tg p).FlagKey = tg.flag) ∧
    (tg.hasFlag = false → (FieldNode.make name tg p).FlagKey = "") := by
  refine ⟨?_, ?_, ?_, ?_, ?_, ?_⟩ <;> intro h1 <;>
    first
      | (intro h2
         simp [FieldNode.ENVKey, FieldNode.FlagKey, FieldNode.tag_make, h1, h2])
      | simp [FieldNode.ENVKey, FieldNode.FlagKey, FieldNode.tag_make, h1]

/-- Witness for C5: derived and explicit keys of a concrete nested field. -/
theorem C5_key_derivation_witness :
    (FieldNode.make "Port" { hasENV := true } (some (.root "Server" {}))).ENVKey
      = goToUpper
          (goJoin (FieldNode.make "Port" ({ hasENV := true } : tagInfo)
            (some (.root "Server" {}))).path "_") ∧
    (FieldNode.make "Port" { hasENV := true, env := "CUSTOM" } none).ENVKey = "CUSTOM" ∧
    (FieldNode.make "Port" { hasFlag := true } (some (.root "Server" {}))).FlagKey
      = goToLower
          (goJoin (FieldNode.make "Port" ({ hasFlag := true } : tagInfo)
            (some (.root "Server" {}))).path "-") ∧
    (FieldNode.make "Port" ({} : tagInfo) none).ENVKey = "" :=
  ⟨(C5_key_derivation "Port" { hasENV := true } (some (.root "Server" {}))).1 rfl rfl,
   (C5_key_derivation "Port" { hasENV := true, env := "CUSTOM" } none).2.1 rfl (by decide),
   (C5_key_derivation "Port" { hasFlag := true } (some (.root "Server" {}))).2.2.2.1 rfl rfl,
   (C5_key_derivation "Port" {} none).2.2.1 rfl⟩

/-! ## Walker lemmas and claims C4, C6 -/

theorem GoType.kind_eq_kStruct_iff (ε : GoType) :
    ε.kind = .kStruct ↔ (ε = .time ∨ ∃ gs, ε = .struct gs) := by
  cases ε <;> simp [GoType.kind]

theorem walkFields_nil (vs : GoVals) (p : Option FieldNode) :
    walkFields .nil vs p = .ok ([], vs) := by
  unfold walkFields
  rfl

theorem walkFields_cons (f : GoField) (fs : GoFields) (v : GoVal) (vs : GoVals)
    (p : Option FieldNode) :
    walkFields (.cons f fs) (.cons v vs) p =
      match walkField f v p with
      | .error e => .error e
      | .ok (ds, v') =>
        match walkFields fs vs p with
        | .error e => .error e
        | .ok (cat, vs') => .ok (ds ++ cat, .cons v' vs') := by
  conv_lhs => unfold walkFields

theorem walkField_eq (nm : String) (anon exp : Bool) (tg : String) (ty : GoType)
    (v : GoVal) (p : Option FieldNode) :
    walkField (.mk nm anon exp tg ty) v p =
      if exp = false then .ok ([], v)
      else if ty = .time ∨ ty = .ptr .time then
        match mkNode (.mk nm anon exp tg ty) p with
        | .error e => .error e
        | .ok node => .ok ([node], v)
      else walkPtr (.mk nm anon exp tg ty) ty v p := by
  unfold walkField
  rfl

theorem walkFields_append (gs : GoFields) (ws : GoVals) (fs : GoFields) (vs : GoVals)
    (p : Option FieldNode) (hlen : gs.length = ws.length) :
    walkFields (gs.append fs) (ws.append vs) p =
      match walkFields gs ws p with
      | .error e => .error e
      | .ok (c₁, w₁) =>
        match walkFields fs vs p with
        | .error e => .error e
        | .ok (c₂, w₂) => .ok (c₁ ++ c₂, w₁.append w₂) := by
  have main : ∀ (n : Nat) (gs : GoFields) (ws : GoVals), gs.length = ws.length →
      gs.length = n →
      walkFields (gs.append fs) (ws.append vs) p =
        match walkFields gs ws p with
        | .error e => .error e
        | .ok (c₁, w₁) =>
          match walkFields fs vs p with
          | .error e => .error e
          | .ok (c₂, w₂) => .ok (c₁ ++ c₂, w₁.append w₂) := by
    intro n
    induction n with
    | zero =>
      intro gs ws h1 h2
      cases gs with
      | cons g gs' => exact absurd h2 (by simp [GoFields.length])
      | nil =>
        cases ws with
        | cons w ws' => exact absurd h1 (by simp [GoFields.length, GoVals.length])
        | nil =>
          rw [walkFields_nil]
          show walkFields fs vs p = _
          cases h : walkFields fs vs p with
          | error e => rfl
          | ok pr => cases pr; simp [GoVals.append]
    | succ n ih =>
      intro gs ws h1 h2
      cases gs with
      | nil => exact absurd h2 (by simp [GoFields.length])
      | cons g gs' =>
        cases ws with
        | nil => exact absurd h1 (by simp [GoFields.length, GoVals.length])
        | cons w ws' =>
          have hlen' : gs'.length = ws'.length := by
            simpa [GoFields.length, GoVals.length] using h1
          have hn' : gs'.length = n := by
            simpa [GoFields.length] using h2
          show walkFields (.cons g (gs'.append fs)) (.cons w (ws'.append vs)) p = _
          rw [walkFields_cons, walkFields_cons, ih gs' ws' hlen' hn']
          cases hwf : walkField g w p with
          | error e => rfl
          | ok pr =>
            obtain ⟨ds, v'⟩ := pr
            cases h1 : walkFields gs' ws' p with
            | error e => rfl
            | ok pr1 =>
              obtain ⟨c₁, w₁⟩ := pr1
              cases h2 : walkFields fs vs p with
              | error e => rfl
              | ok pr2 =>
                obtain ⟨c₂, w₂⟩ := pr2
                simp [List.append_assoc, GoVals.append]
  exact main gs.length gs ws hlen rfl

/-- C6: a struct embedded as an anonymous field produces no descriptor for
the embedded field itself; its children are walked with the embedding
field's own parent, so the emitted catalog is exactly what the children
would produce if declared directly on the embedding struct (no extra path
segment in any derived key). -/
theorem C6_embedded_flattening (nm tg : String) (gs : GoFields) (ws : GoVals)
    (fs : GoFields) (vs : GoVals) (p : Option FieldNode) (t : tagInfo)
    (htag : parseTag tg = .ok t) (hlen : gs.length = ws.length) :
    catalogOf (walkField (.mk nm true true tg (.struct gs)) (.vStruct ws) p)
      = catalogOf (walkFields gs ws p) ∧
    catalogOf (walkFields (.cons (.mk nm true true tg (.struct gs)) fs)
        (.cons (.vStruct ws) vs) p)
      = catalogOf (walkFields (gs.append fs) (ws.append vs) p) := by
  have hfield : walkField (.mk nm true true tg (.struct gs)) (.vStruct ws) p =
      match walkFields gs ws p with
      | .error e => .error e
      | .ok (cat, ws') => .ok (cat, GoVal.vStruct ws') := by
    rw [walkField_eq, if_neg (by simp), if_neg (by simp)]
    unfold walkPtr
    simp only [mkNode, GoField.tag, htag, GoField.anonymous, GoField.name, if_true]
  refine ⟨?_, ?_⟩
  · rw [hfield]
    cases h : walkFields gs ws p with
    | error e => rfl
    | ok pr => cases pr; rfl
  · rw [walkFields_cons, hfield, walkFields_append gs ws fs vs p hlen]
    cases h1 : walkFields gs ws p with
    | error e => rfl
    | ok pr1 =>
      obtain ⟨c₁, w₁⟩ := pr1
      cases h2 : walkFields fs vs p with
      | error e => rfl
      | ok pr2 =>
        obtain ⟨c₂, w₂⟩ := pr2
        rfl

/-- Witness for C6: a concrete embedded struct, flattened. -/
theorem C6_embedded_flattening_witness :
    catalogOf (walkField
        (.mk "Inner" true true "" (.struct (.cons (.mk "X" false true "env" .int) .nil)))
        (.vStruct (.cons (.vInt 0) .nil)) none)
      = catalogOf (walkFields (.cons (.mk "X" false true "env" .int) .nil)
          (.cons (.vInt 0) .nil) none) ∧
    catalogOf (walkFields
        (.cons (.mk "Inner" true true "" (.struct (.cons (.mk "X" false true "env" .int) .nil)))
          (.cons (.mk "Y" false true "flag" .string) .nil))
        (.cons (.vStruct (.cons (.vInt 0) .nil)) (.cons (.vString "") .nil)) none)
      = catalogOf (walkFields
          ((GoFields.cons (.mk "X" false true "env" .int) .nil).append
            (.cons (.mk "Y" false true "flag" .string) .nil))
          ((GoVals.cons (.vInt 0) .nil).append (.cons (.vString "") .nil)) none) :=
  C6_embedded_flattening "Inner" "" (.cons (.mk "X" false true "env" .int) .nil)
    (.cons (.vInt 0) .nil) (.cons (.mk "Y" false true "flag" .string) .nil)
    (.cons (.vString "") .nil) none {} (by decide) rfl

/-- C4: after a successful walk, an exported field that was a nil pointer
to a struct type has been set to a pointer at a newly allocated
zero-valued instance (further updated only by the same vivification rule
applied to its own descendants), and the walk of that zero instance is
exactly the field's contribution to the catalog; an exported field that
was a nil pointer to a non-struct type is left nil and contributes exactly
one leaf descriptor; and a non-nil pointer is resolved by dereferencing
one level and repeating, the resulting descriptors being re-wrapped around
the updated target. The last clause ties the field-level facts to
`buildCatalog`, whose result is the field-by-field walk of the root
struct. -/
theorem C4_auto_vivification :
    (∀ (nm tg : String) (anon : Bool) (gs : GoFields) (p : Option FieldNode),
      walkField (.mk nm anon true tg (.ptr (.struct gs))) (.vPtrNil (.struct gs)) p =
        match mkNode (.mk nm anon true tg (.ptr (.struct gs))) p with
        | .error e => .error e
        | .ok node =>
          match walkFields gs gs.zeroVals (if anon then p else some node) with
          | .error e => .error e
          | .ok (ds, ws') => .ok (ds, .vPtrTo (.struct gs) (.vStruct ws'))) ∧
    (∀ (nm tg : String) (anon : Bool) (ε : GoType) (p : Option FieldNode),
      (∀ gs, ε ≠ .struct gs) →
      walkField (.mk nm anon true tg (.ptr ε)) (.vPtrNil ε) p =
        match mkNode (.mk nm anon true tg (.ptr ε)) p with
        | .error e => .error e
        | .ok node => .ok ([node], .vPtrNil ε)) ∧
    (∀ (f : GoField) (ε εv : GoType) (w : GoVal) (p : Option FieldNode),
      walkPtr f (.ptr ε) (.vPtrTo εv w) p =
        match walkPtr f ε w p with
        | .error e => .error e
        | .ok (ds, w') => .ok (ds, .vPtrTo ε w')) ∧
    (∀ (fs : GoFields) (vs : GoVals) (τe : GoType),
      buildCatalog (.ptr (.struct fs)) (.vPtrTo τe (.vStruct vs)) =
        match walkFields fs vs none with
        | .error e => .error e
        | .ok (cat, ws') => .ok (cat, .vPtrTo (.struct fs) (.vStruct ws'))) := by
  refine ⟨?_, ?_, ?_, ?_⟩
  · intro nm tg anon gs p
    rw [walkField_eq, if_neg (by simp), if_neg (by simp)]
    conv_lhs => unfold walkPtr
    rw [if_pos (show (GoType.struct gs).kind = GoKind.kStruct from rfl)]
    have hz : (GoType.struct gs).zeroVal = .vStruct gs.zeroVals := by
      unfold GoType.zeroVal
      rfl
    rw [hz]
    conv_lhs => unfold walkPtr
    simp only [GoField.anonymous, GoField.name, GoField.tag]
    cases hmk : mkNode (.mk nm anon true tg (.ptr (.struct gs))) p with
    | error e => simp [hmk]
    | ok node =>
      simp only [hmk]
      cases hwf : walkFields gs gs.zeroVals (if anon then p else some node) with
      | error e => simp [hwf]
      | ok pr => cases pr; simp [hwf]
  · intro nm tg anon ε p h
    by_cases hτ : ε = .time
    · subst hτ
      rw [walkField_eq, if_neg (by simp), if_pos (by simp)]
    · have hk : ¬ε.kind = .kStruct := by
        intro hk
        rcases (GoType.kind_eq_kStruct_iff ε).mp hk with h1 | ⟨gs, h1⟩
        · exact hτ h1
        · exact h gs h1
      rw [walkField_eq, if_neg (by simp), if_neg (by simp [hτ])]
      conv_lhs => unfold walkPtr
      rw [if_neg hk]
  · intro f ε εv w p
    conv_lhs => unfold walkPtr
  · intro fs vs τe
    simp only [buildCatalog, getStructInfo]

/-- Witness for C4: concrete nil pointers to a struct and to an `int`, a
non-nil pointer dereference, and a concrete `buildCatalog` call. -/
theorem C4_auto_vivification_witness :
    walkField (.mk "A" false true ""
        (.ptr (.struct (.cons (.mk "X" false true "env" .int) .nil))))
        (.vPtrNil (.struct (.cons (.mk "X" false true "env" .int) .nil))) none =
      (match mkNode (.mk "A" false true ""
          (.ptr (.struct (.cons (.mk "X" false true "env" .int) .nil)))) none with
        | .error e => .error e
        | .ok node =>
          match walkFields (.cons (.mk "X" false true "env" .int) .nil)
              (GoFields.cons (.mk "X" false true "env" .int) .nil).zeroVals
              (if false then none else some node) with
          | .error e => .error e
          | .ok (ds, ws') =>
            .ok (ds, .vPtrTo (.struct (.cons (.mk "X" false true "env" .int) .nil))
              (.vStruct ws'))) ∧
    walkField (.mk "B" false true "env" (.ptr .int)) (.vPtrNil .int) none =
      (match mkNode (.mk "B" false true "env" (.ptr .int)) none with
        | .error e => .error e
        | .ok node => .ok ([node], .vPtrNil .int)) ∧
    walkPtr (.mk "B" false true "env" (.ptr .int)) (.ptr .int) (.vPtrTo .int (.vInt 0)) none =
      (match walkPtr (.mk "B" false true "env" (.ptr .int)) .int (.vInt 0) none with
        | .error e => .error e
        | .ok (ds, w') => .ok (ds, .vPtrTo .int w')) ∧
    buildCatalog (.ptr (.struct (.cons (.mk "X" false true "env" .int) .nil)))
        (.vPtrTo (.struct (.cons (.mk "X" false true "env" .int) .nil))
          (.vStruct (.cons (.vInt 0) .nil))) =
      (match walkFields (.cons (.mk "X" false true "env" .int) .nil)
          (.cons (.vInt 0) .nil) none with
        | .error e => .error e
        | .ok (cat, ws') =>
          .ok (cat, .vPtrTo (.struct (.cons (.mk "X" false true "env" .int) .nil))
            (.vStruct ws'))) :=
  ⟨C4_auto_vivification.1 "A" "" false (.cons (.mk "X" false true "env" .int) .nil) none,
   C4_auto_vivification.2.1 "B" "env" false .int none (fun _ h => GoType.noConfusion h),
   C4_auto_vivification.2.2.1 (.mk "B" false true "env" (.ptr .int)) .int .int (.vInt 0) none,
   C4_auto_vivification.2.2.2 (.cons (.mk "X" false true "env" .int) .nil)
     (.cons (.vInt 0) .nil) (.struct (.cons (.mk "X" false true "env" .int) .nil))⟩

/-! ## Claims C1, C2, C10: the coercion engine -/

/-- C10: on a timestamp destination (value or pointer form) with a valid
RFC3339 string, the destination is overwritten with the parsed time and an
error (the fall-through UnsupportedType error) is nevertheless returned —
coercion for this kind mutates state on its error path. -/
theorem C10_timestamp_stores_despite_error (s : String) (t : Timestamp) (val val' : GoVal)
    (h : goParseRFC3339 s = .ok t) :
    setFieldValue val .time s = .err (.unsupported "setFieldValue" "struct") (.vTime t) ∧
    setPtrValue val' (.ptr .time) s
      = .err (.unsupported "setPtrValue" "ptr") (.vPtrTo .time (.vTime t)) := by
  constructor
  · simp [setFieldValue, GoType.kind, h, GoKind.string]
  · simp [setPtrValue, GoType.kind, h, GoKind.string, goSet]

/-- Witness for C10: a concrete RFC3339 string on both destination forms. -/
theorem C10_timestamp_stores_despite_error_witness :
    setFieldValue (.vTime ⟨1, 1, 1, 0, 0, 0, 0⟩) .time "2023-01-02T03:04:05Z"
      = .err (.unsupported "setFieldValue" "struct") (.vTime ⟨2023, 1, 2, 3, 4, 5, 0⟩) ∧
    setPtrValue (.vPtrNil .time) (.ptr .time) "2023-01-02T03:04:05Z"
      = .err (.unsupported "setPtrValue" "ptr")
          (.vPtrTo .time (.vTime ⟨2023, 1, 2, 3, 4, 5, 0⟩)) :=
  C10_timestamp_stores_despite_error "2023-01-02T03:04:05Z" ⟨2023, 1, 2, 3, 4, 5, 0⟩
    (.vTime ⟨1, 1, 1, 0, 0, 0, 0⟩) (.vPtrNil .time) (by decide)

/-- C1 (code bug): on a timestamp destination with a valid RFC3339 string
the code does parse and store the time — but then falls through to the
unconditional UnsupportedType return (`return nil` is missing after the
store), so it reports an error instead of success, for both the value and
the pointer form. -/
theorem C1_timestamp_reports_error_after_store :
    setFieldValue (.vTime ⟨1, 1, 1, 0, 0, 0, 0⟩) .time "2023-01-02T03:04:05Z"
      = .err (.unsupported "setFieldValue" "struct") (.vTime ⟨2023, 1, 2, 3, 4, 5, 0⟩) ∧
    setPtrValue (.vPtrNil .time) (.ptr .time) "2023-01-02T03:04:05Z"
      = .err (.unsupported "setPtrValue" "ptr")
          (.vPtrTo .time (.vTime ⟨2023, 1, 2, 3, 4, 5, 0⟩)) ∧
    (∀ v : GoVal, CoerceResult.err (.unsupported "setFieldValue" "struct") v
      ≠ .ok v) := by
  refine ⟨by decide, by decide, fun v h => CoerceResult.noConfusion h⟩

/-- C2 (code bug): every arm of `setPtrValue` for the signed, unsigned and
float kind groups stores the address of an `int64`/`uint64`/`float64`
parse result, so a destination whose pointed-to type is any *other* width
in the group makes `reflect.Value.Set` panic instead of allocating the
pointed-to type and succeeding; `*time.Duration` also panics (its duration
check compares the pointer type against `time.Duration` and so never
fires). Only the exact-width destinations succeed. -/
theorem C2_pointer_scalar_panics :
    setPtrValue (.vPtrNil .int8) (.ptr .int8) "42" = .panicked (.ptr .int8) (.ptr .int64) ∧
    setPtrValue (.vPtrNil .int) (.ptr .int) "42" = .panicked (.ptr .int) (.ptr .int64) ∧
    setPtrValue (.vPtrNil .uint16) (.ptr .uint16) "42"
      = .panicked (.ptr .uint16) (.ptr .uint64) ∧
    setPtrValue (.vPtrNil .float32) (.ptr .float32) "1.5"
      = .panicked (.ptr .float32) (.ptr .float64) ∧
    setPtrValue (.vPtrNil .duration) (.ptr .duration) "42"
      = .panicked (.ptr .duration) (.ptr .int64) ∧
    setPtrValue (.vPtrNil .int64) (.ptr .int64) "42" = .ok (.vPtrTo .int64 (.vInt64 42)) ∧
    setPtrValue (.vPtrNil .bool) (.ptr .bool) "true" = .ok (.vPtrTo .bool (.vBool true)) ∧
    setPtrValue (.vPtrNil .string) (.ptr .string) "x"
      = .ok (.vPtrTo .string (.vString "x")) := by
  refine ⟨by decide, by decide, by decide, by decide, by decide, by decide, by decide,
    by decide⟩

/-! ## Digit and format lemmas for the round-trip claim -/

theorem data_mk (l : List Char) : (⟨l⟩ : String).data = l := rfl

theorem isDigit_digitChar (m : Nat) (hm : m < 10) : (Char.ofNat (48 + m)).isDigit = true := by
  interval_cases m <;> decide

theorem toNat_digitChar (m : Nat) (hm : m < 10) : (Char.ofNat (48 + m)).toNat - 48 = m := by
  interval_cases m <;> decide

theorem charDigit_digitChar (m : Nat) (hm : m < 10) :
    charDigit (Char.ofNat (48 + m)) = some m := by
  interval_cases m <;> decide

theorem digitChar_ne_zero (m : Nat) (hm0 : 0 < m) (hm : m < 10) :
    Char.ofNat (48 + m) ≠ '0' := by
  interval_cases m <;> decide

theorem isDigit_ne_plus (c : Char) (h : c.isDigit = true) : ¬c = '+' := by
  intro hc; rw [hc] at h; cases h

theorem isDigit_ne_minus (c : Char) (h : c.isDigit = true) : ¬c = '-' := by
  intro hc; rw [hc] at h; cases h

theorem isDigit_ne_dot (c : Char) (h : c.isDigit = true) : ¬c = '.' := by
  intro hc; rw [hc] at h; cases h

theorem natToDigits_eq (n : Nat) :
    natToDigits n = if n < 10 then [Char.ofNat (48 + n)]
      else natToDigits (n / 10) ++ [Char.ofNat (48 + n % 10)] := by
  rw [natToDigits]
  by_cases h : n < 10
  · simp [h]
  · simp [h]

theorem natToDigits_mem_digit (n : Nat) : ∀ c ∈ natToDigits n, c.isDigit = true := by
  induction n using Nat.strong_induction_on with
  | _ n ih =>
    rw [natToDigits_eq]
    by_cases h : n < 10
    · rw [if_pos h]
      intro c hc
      rw [List.mem_singleton] at hc
      rw [hc]
      exact isDigit_digitChar n h
    · rw [if_neg h]
      intro c hc
      rcases List.mem_append.mp hc with h1 | h1
      · exact ih (n / 10) (Nat.div_lt_self (by omega) (by omega)) c h1
      · rw [List.mem_singleton] at h1
        rw [h1]
        exact isDigit_digitChar (n % 10) (Nat.mod_lt n (by omega))

theorem natToDigits_cons (n : Nat) :
    ∃ c cs, natToDigits n = c :: cs ∧ c.isDigit = true ∧ (n ≠ 0 → c ≠ '0') := by
  induction n using Nat.strong_induction_on with
  | _ n ih =>
    rw [natToDigits_eq]
    by_cases h : n < 10
    · rw [if_pos h]
      refine ⟨Char.ofNat (48 + n), [], rfl, isDigit_digitChar n h, fun hn => ?_⟩
      exact digitChar_ne_zero n (by omega) h
    · rw [if_neg h]
      obtain ⟨c, cs, hcons, hdig, hz⟩ := ih (n / 10) (Nat.div_lt_self (by omega) (by omega))
      exact ⟨c, cs ++ [Char.ofNat (48 + n % 10)], by rw [hcons]; rfl, hdig,
        fun _ => hz (by omega)⟩

theorem digitsVal_aux (n : Nat) : ∀ acc : Nat,
    (natToDigits n).foldl (fun m c => m * 10 + (c.toNat - 48)) acc
      = acc * 10 ^ (natToDigits n).length + n := by
  induction n using Nat.strong_induction_on with
  | _ n ih =>
    intro acc
    rw [natToDigits_eq]
    by_cases h : n < 10
    · rw [if_pos h]
      simp [toNat_digitChar n h]
    · rw [if_neg h]
      rw [List.foldl_append, ih (n / 10) (Nat.div_lt_self (by omega) (by omega)) acc]
      simp only [List.foldl_cons, List.foldl_nil, List.length_append, List.length_singleton]
      rw [toNat_digitChar (n % 10) (Nat.mod_lt n (by omega))]
      rw [pow_succ]
      have : n / 10 * 10 + n % 10 = n := by omega
      ring_nf
      omega

theorem digitsVal_natToDigits (n : Nat) : digitsVal (natToDigits n) = n := by
  unfold digitsVal
  rw [digitsVal_aux n 0]
  simp

theorem parseUintDigits_aux (n : Nat) : ∀ acc : Nat,
    (natToDigits n).foldl
      (fun acc c =>
        acc.bind fun m =>
          match charDigit c with
          | some d => if d < 10 then some (m * 10 + d) else none
          | none => none)
      (some acc) = some (acc * 10 ^ (natToDigits n).length + n) := by
  induction n using Nat.strong_induction_on with
  | _ n ih =>
    intro acc
    rw [natToDigits_eq]
    by_cases h : n < 10
    · rw [if_pos h]
      simp [charDigit_digitChar n h, Option.bind, h]
    · rw [if_neg h]
      rw [List.foldl_append, ih (n / 10) (Nat.div_lt_self (by omega) (by omega)) acc]
      have hm : n % 10 < 10 := Nat.mod_lt n (by omega)
      simp only [List.foldl_cons, List.foldl_nil, List.length_append, List.length_singleton,
        charDigit_digitChar (n % 10) hm, Option.bind, if_pos hm]
      rw [pow_succ]
      have : n / 10 * 10 + n % 10 = n := by omega
      congr 1
      ring_nf
      omega

theorem parseUintDigits_natToDigits (n : Nat) :
    parseUintDigits 10 (natToDigits n) = some n := by
  unfold parseUintDigits
  rw [parseUintDigits_aux n 0]
  simp

theorem goParseUint_format (n : Nat) (bitSize : Nat) (h : n ≤ 2 ^ bitSize - 1) :
    goParseUint (formatNat n) bitSize = .ok n := by
  by_cases h0 : n = 0
  · subst h0
    have hz : natToDigits 0 = ['0'] := by rw [natToDigits_eq]; rfl
    unfold goParseUint formatNat
    rw [data_mk, hz]
    simp [parseUintDigits]
  · obtain ⟨c, cs, hcons, hdig, hz⟩ := natToDigits_cons n
    unfold goParseUint formatNat
    rw [data_mk, hcons]
    dsimp only
    rw [if_neg (hz h0)]
    dsimp only
    rw [← hcons, parseUintDigits_natToDigits n]
    dsimp only
    rw [if_neg (show ¬n > 2 ^ bitSize - 1 by omega)]

theorem goParseInt_format (i : Int) (h1 : -(2 ^ 63) ≤ i) (h2 : i ≤ 2 ^ 63 - 1) :
    goParseInt (formatInt i) 64 = .ok i := by
  by_cases hneg : i < 0
  · have hdata : (formatInt i).data = '-' :: natToDigits i.natAbs := by
      unfold formatInt
      rw [if_pos hneg, String.data_append, data_mk]
      rfl
    unfold goParseInt
    rw [hdata]
    dsimp only
    rw [if_neg (show ¬('-' = '+') by decide), if_pos rfl]
    dsimp only
    have hub : i.natAbs ≤ 2 ^ 64 - 1 := by omega
    have hup := goParseUint_format i.natAbs 64 hub
    unfold formatNat at hup
    rw [hup]
    dsimp only
    rw [if_neg (show ¬i.natAbs > 2 ^ 63 by omega)]
    have hcast : (i.natAbs : Int) = -i := Int.ofNat_natAbs_of_nonpos (by omega)
    rw [hcast]
    simp
  · have hdata : (formatInt i).data = natToDigits i.natAbs := by
      unfold formatInt
      rw [if_neg hneg]
      rfl
    obtain ⟨c, cs, hcons, hdig, hz⟩ := natToDigits_cons i.natAbs
    unfold goParseInt
    rw [hdata, hcons]
    dsimp only
    rw [if_neg (isDigit_ne_plus c hdig), if_neg (isDigit_ne_minus c hdig)]
    dsimp only
    have hub : i.natAbs ≤ 2 ^ 64 - 1 := by omega
    have hup := goParseUint_format i.natAbs 64 hub
    unfold formatNat at hup
    rw [← hcons, hup]
    dsimp only
    rw [if_neg (show ¬i.natAbs ≥ 2 ^ 63 by omega)]
    have hcast : ((i.natAbs : Int)) = i := Int.natAbs_of_nonneg (by omega)
    rw [hcast]
    simp

theorem wrapSigned_id (w : Nat) (i : Int) (hw : 1 ≤ w) (h1 : -(2 ^ (w - 1)) ≤ i)
    (h2 : i < 2 ^ (w - 1)) : wrapSigned w i = i := by
  unfold wrapSigned
  have h2w : (2 : Int) ^ w = 2 ^ (w - 1) * 2 := by
    rw [← pow_succ]
    congr 1
    omega
  have hpos : (0 : Int) < 2 ^ (w - 1) := by positivity
  have := Int.emod_eq_of_lt (a := i + 2 ^ (w - 1)) (b := 2 ^ w) (by omega) (by omega)
  omega

/-! ## Duration and float round-trip lemmas -/

theorem takeDigits_split (l r : List Char) (hl : ∀ c ∈ l, c.isDigit = true)
    (hr : r = [] ∨ ∃ c cs, r = c :: cs ∧ c.isDigit = false) :
    takeDigits (l ++ r) = (l, r) := by
  induction l with
  | nil =>
    simp only [List.nil_append]
    rcases hr with h | ⟨c, cs, hcons, hcd⟩
    · subst h; rfl
    · subst hcons
      simp [takeDigits, hcd]
  | cons a l' ih =>
    have ha : a.isDigit = true := hl a (List.mem_cons_self a l')
    have ih' := ih (fun c hc => hl c (List.mem_cons_of_mem a hc))
    show takeDigits (a :: (l' ++ r)) = (a :: l', r)
    rw [takeDigits, ha, if_pos rfl, ih']

theorem takeDigits_all (l : List Char) (hl : ∀ c ∈ l, c.isDigit = true) :
    takeDigits l = (l, []) := by
  have := takeDigits_split l [] hl (Or.inl rfl)
  simpa using this

theorem durationLoop_ns (msg : String) (c : Char) (cs : List Char)
    (hd : ∀ x ∈ c :: cs, x.isDigit = true) (v : Nat) (hv : digitsVal (c :: cs) = v)
    (hb : v ≤ 2 ^ 63) :
    durationLoop msg ((c :: (cs ++ ['n', 's'])).length + 1) (c :: (cs ++ ['n', 's'])) 0
      = .ok v := by
  have hc : c.isDigit = true := hd c (List.mem_cons_self c cs)
  have htd : takeDigits (c :: (cs ++ ['n', 's'])) = (c :: cs, ['n', 's']) := by
    have := takeDigits_split (c :: cs) ['n', 's'] hd
      (Or.inr ⟨'n', ['s'], rfl, by decide⟩)
    simpa using this
  conv_lhs => unfold durationLoop
  rw [if_neg (by simp [hc]), htd]
  dsimp only
  rw [hv]
  rw [if_neg (show ¬v > 2 ^ 63 by omega)]
  rw [if_neg (show ¬('n' = '.') by decide)]
  dsimp only
  rw [if_neg (show ¬((!!(c :: cs).isEmpty && !false) = true) by simp)]
  have hunit : takeUnit ['n', 's'] = (['n', 's'], []) := rfl
  rw [hunit]
  dsimp only
  have hu : unitValue ['n', 's'] = some 1 := rfl
  rw [hu]
  dsimp only
  have h631 : (2 : Nat) ^ 63 / 1 = 2 ^ 63 := Nat.div_one _
  rw [h631]
  rw [if_neg (show ¬v > 2 ^ 63 by omega)]
  have harith : v * 1 + 0 * 1 / 1 = v := by simp
  rw [harith]
  rw [if_neg (show ¬v > 2 ^ 63 by omega)]
  rw [Nat.zero_add]
  rw [if_neg (show ¬v > 2 ^ 63 by omega)]
  simp only [List.length_cons]
  rfl

theorem goParseDuration_ns (d : Int) (h1 : -(2 ^ 63) ≤ d) (h2 : d ≤ 2 ^ 63 - 1) :
    goParseDuration (formatInt d ++ "ns") = .ok d := by
  obtain ⟨c, cs, hcons, hdig, hz⟩ := natToDigits_cons d.natAbs
  have hmem : ∀ x ∈ c :: cs, x.isDigit = true := by
    rw [← hcons]
    exact natToDigits_mem_digit d.natAbs
  have hval : digitsVal (c :: cs) = d.natAbs := by
    rw [← hcons]
    exact digitsVal_natToDigits d.natAbs
  by_cases hneg : d < 0
  · have hdata : (formatInt d ++ "ns").data = '-' :: (c :: (cs ++ ['n', 's'])) := by
      rw [String.data_append]
      unfold formatInt formatNat
      rw [if_pos hneg, String.data_append, data_mk, hcons]
      rfl
    unfold goParseDuration
    rw [hdata]
    dsimp only
    rw [if_pos rfl]
    rw [if_neg (show ¬(c :: (cs ++ ['n', 's'])) = ['0'] by simp)]
    have hemp : (c :: (cs ++ ['n', 's'])).isEmpty = false := rfl
    rw [hemp]
    dsimp only
    rw [durationLoop_ns _ c cs hmem d.natAbs hval (by omega)]
    dsimp only
    rw [if_pos rfl]
    have : ((d.natAbs : Int)) = -d := Int.ofNat_natAbs_of_nonpos (by omega)
    rw [this]
    simp
  · have hdata : (formatInt d ++ "ns").data = c :: (cs ++ ['n', 's']) := by
      rw [String.data_append]
      unfold formatInt formatNat
      rw [if_neg hneg, data_mk, hcons]
      rfl
    unfold goParseDuration
    rw [hdata]
    dsimp only
    rw [if_neg (isDigit_ne_minus c hdig), if_neg (isDigit_ne_plus c hdig)]
    rw [if_neg (show ¬(c :: (cs ++ ['n', 's'])) = ['0'] by simp)]
    have hemp : (c :: (cs ++ ['n', 's'])).isEmpty = false := rfl
    rw [hemp]
    dsimp only
    rw [durationLoop_ns _ c cs hmem d.natAbs hval (by omega)]
    dsimp only
    rw [if_neg (show ¬d.natAbs > 2 ^ 63 - 1 by omega)]
    have : ((d.natAbs : Int)) = d := Int.natAbs_of_nonneg (by omega)
    rw [this]
    simp

theorem goParseFloat_sci (n : Int) (k : Nat) :
    goParseFloat (formatInt n ++ "e-" ++ formatNat k) = .ok ((n : Rat) / 10 ^ k) := by
  obtain ⟨c, cs, hcons, hdig, hz⟩ := natToDigits_cons n.natAbs
  obtain ⟨ck, cks, hkons, hkdig, hkz⟩ := natToDigits_cons k
  have hmem : ∀ x ∈ c :: cs, x.isDigit = true := by
    rw [← hcons]; exact natToDigits_mem_digit n.natAbs
  have htd0 := takeDigits_split (c :: cs) ('e' :: '-' :: natToDigits k) hmem
    (Or.inr ⟨'e', '-' :: natToDigits k, rfl, by decide⟩)
  have htd : takeDigits (c :: (cs ++ 'e' :: '-' :: natToDigits k))
      = (c :: cs, 'e' :: '-' :: natToDigits k) := by simpa using htd0
  have htdk : takeDigits (natToDigits k) = (natToDigits k, []) :=
    takeDigits_all _ (natToDigits_mem_digit k)
  have hvk : digitsVal (natToDigits k) = k := digitsVal_natToDigits k
  have hvn : digitsVal (c :: cs) = n.natAbs := by
    rw [← hcons]; exact digitsVal_natToDigits n.natAbs
  have hds : "-".data = ['-'] := rfl
  have hde : "e-".data = ['e', '-'] := rfl
  by_cases hneg : n < 0
  · have hdata : (formatInt n ++ "e-" ++ formatNat k).data
        = '-' :: (c :: (cs ++ 'e' :: '-' :: natToDigits k)) := by
      rw [String.data_append, String.data_append]
      unfold formatInt formatNat
      rw [if_pos hneg, String.data_append]
      simp only [data_mk, hcons, hds, hde]
      simp
    unfold goParseFloat
    rw [hdata]
    split
    next heq => exact absurd heq (by simp)
    next c0 rest heq =>
      injection heq with h1 h2
      subst h1
      subst h2
      rw [if_neg (show ¬('-' = '+') by decide), if_pos rfl]
      dsimp only
      rw [htd]
      dsimp only
      rw [if_neg (show ¬('e' = '.') by decide)]
      dsimp only
      rw [if_neg (show ¬((c :: cs) = [] ∧ ([] : List Char) = []) by simp)]
      rw [if_neg (show ¬('-' = '+') by decide), if_pos rfl]
      rw [if_pos (Or.inl rfl)]
      dsimp only
      rw [htdk, hkons]
      dsimp only
      rw [← hkons, hvk]
      rw [if_pos rfl]
      rw [if_pos rfl]
      rw [hvn]
      rw [show ((digitsVal ([] : List Char) : Rat)) = 0 from rfl]
      simp only [List.length_nil, pow_zero]
      obtain ⟨m, rfl⟩ : ∃ m : Nat, n = -(m : Int) := ⟨n.natAbs, by omega⟩
      simp only [Int.natAbs_neg, Int.natAbs_ofNat]
      push_cast
      norm_num
  · have hdata : (formatInt n ++ "e-" ++ formatNat k).data
        = (c :: cs) ++ ('e' :: '-' :: natToDigits k) := by
      rw [String.data_append, String.data_append]
      unfold formatInt formatNat
      rw [if_neg hneg]
      simp only [data_mk, hcons, hds, hde]
      simp
    unfold goParseFloat
    rw [hdata]
    split
    next heq => exact absurd heq (by simp)
    next c0 rest heq =>
      injection heq with h1 h2
      subst h1
      subst h2
      simp only [List.append_eq]
      rw [if_neg (isDigit_ne_plus c hdig), if_neg (isDigit_ne_minus c hdig)]
      dsimp only
      rw [htd]
      dsimp only
      rw [if_neg (show ¬('e' = '.') by decide)]
      dsimp only
      rw [if_neg (show ¬((c :: cs) = [] ∧ ([] : List Char) = []) by simp)]
      rw [if_neg (show ¬('-' = '+') by decide), if_pos rfl]
      rw [if_pos (Or.inl rfl)]
      dsimp only
      rw [htdk, hkons]
      dsimp only
      rw [← hkons, hvk]
      rw [if_pos rfl]
      rw [if_neg (show ¬(false = true) by decide)]
      rw [hvn]
      rw [show ((digitsVal ([] : List Char) : Rat)) = 0 from rfl]
      simp only [List.length_nil, pow_zero]
      obtain ⟨m, rfl⟩ : ∃ m : Nat, n = (m : Int) := ⟨n.toNat, by omega⟩
      push_cast
      norm_num

theorem dval_digitChar (m : Nat) (hm : m < 10) : dval (Char.ofNat (48 + m)) = m :=
  toNat_digitChar m hm

theorem parseOffset_format (off : Int) (hb : off.natAbs ≤ 23 * 60 + 59) :
    parseOffset (offsetChars off) = some off := by
  by_cases h0 : off = 0
  · subst h0; rfl
  · have hh9 : off.natAbs / 60 ≤ 23 := by omega
    have hm9 : off.natAbs % 60 ≤ 59 := by omega
    have habs : (off.natAbs / 60 / 10 * 10 + off.natAbs / 60 % 10) * 60 +
        (off.natAbs % 60 / 10 * 10 + off.natAbs % 60 % 10) = off.natAbs := by omega
    have hcast : (((off.natAbs / 60 / 10 * 10 + off.natAbs / 60 % 10) * 60 +
        (off.natAbs % 60 / 10 * 10 + off.natAbs % 60 % 10) : Nat) : Int)
        = ((off.natAbs : Int)) := by
      exact_mod_cast congrArg (fun n : Nat => (n : Int)) habs
    by_cases hneg : off < 0
    · have hoc : offsetChars off = ['-', Char.ofNat (48 + off.natAbs / 60 / 10),
          Char.ofNat (48 + off.natAbs / 60 % 10), ':',
          Char.ofNat (48 + off.natAbs % 60 / 10), Char.ofNat (48 + off.natAbs % 60 % 10)] := by
        unfold offsetChars pad2
        rw [if_neg h0, if_pos hneg]
        simp
      rw [hoc]
      unfold parseOffset
      dsimp only
      rw [if_pos ⟨Or.inr rfl, rfl, isDigit_digitChar _ (by omega), isDigit_digitChar _ (by omega),
        isDigit_digitChar _ (by omega), isDigit_digitChar _ (by omega)⟩]
      rw [dval_digitChar _ (by omega), dval_digitChar _ (by omega),
        dval_digitChar _ (by omega), dval_digitChar _ (by omega)]
      rw [if_pos ⟨by omega, by omega⟩]
      rw [if_pos rfl]
      rw [hcast]
      congr 1
      omega
    · have hoc : offsetChars off = ['+', Char.ofNat (48 + off.natAbs / 60 / 10),
          Char.ofNat (48 + off.natAbs / 60 % 10), ':',
          Char.ofNat (48 + off.natAbs % 60 / 10), Char.ofNat (48 + off.natAbs % 60 % 10)] := by
        unfold offsetChars pad2
        rw [if_neg h0, if_neg hneg]
        simp
      rw [hoc]
      unfold parseOffset
      dsimp only
      rw [if_pos ⟨Or.inl rfl, rfl, isDigit_digitChar _ (by omega), isDigit_digitChar _ (by omega),
        isDigit_digitChar _ (by omega), isDigit_digitChar _ (by omega)⟩]
      rw [dval_digitChar _ (by omega), dval_digitChar _ (by omega),
        dval_digitChar _ (by omega), dval_digitChar _ (by omega)]
      rw [if_pos ⟨by omega, by omega⟩]
      rw [if_neg (show ¬('+' = '-') by decide)]
      rw [hcast]
      congr 1
      omega

theorem goParseRFC3339_format (t : Timestamp) (hv : t.valid) :
    goParseRFC3339 (formatRFC3339 t) = .ok t := by
  obtain ⟨y, mo, dd, hh, mi, ss, off⟩ := t
  unfold Timestamp.valid at hv
  dsimp only at hv
  obtain ⟨hy, hmo1, hmo2, hdd1, hdd2, hhh, hmi, hss, hoff⟩ := hv
  have hd31 : daysIn mo y ≤ 31 := by
    unfold daysIn
    split
    · split <;> omega
    · split <;> omega
  have hdd31 : dd ≤ 31 := le_trans hdd2 hd31
  have hdata : (formatRFC3339 ⟨y, mo, dd, hh, mi, ss, off⟩).data =
      Char.ofNat (48 + y / 1000) :: Char.ofNat (48 + y / 100 % 10) ::
      Char.ofNat (48 + y / 10 % 10) :: Char.ofNat (48 + y % 10) :: '-' ::
      Char.ofNat (48 + mo / 10) :: Char.ofNat (48 + mo % 10) :: '-' ::
      Char.ofNat (48 + dd / 10) :: Char.ofNat (48 + dd % 10) :: 'T' ::
      Char.ofNat (48 + hh / 10) :: Char.ofNat (48 + hh % 10) :: ':' ::
      Char.ofNat (48 + mi / 10) :: Char.ofNat (48 + mi % 10) :: ':' ::
      Char.ofNat (48 + ss / 10) :: Char.ofNat (48 + ss % 10) :: offsetChars off := by
    unfold formatRFC3339 pad4 pad2
    rw [data_mk]
    simp
  unfold goParseRFC3339
  rw [hdata]
  dsimp only
  rw [if_pos ⟨rfl, rfl, rfl, rfl, rfl, by
    simp only [List.all_cons, List.all_nil, Bool.and_true, Bool.and_eq_true]
    refine ⟨?_, ?_, ?_, ?_, ?_, ?_, ?_, ?_, ?_, ?_, ?_, ?_, ?_, ?_⟩ <;>
      exact isDigit_digitChar _ (by omega)⟩]
  rw [dval_digitChar _ (by omega), dval_digitChar _ (by omega),
    dval_digitChar _ (by omega), dval_digitChar _ (by omega),
    dval_digitChar _ (by omega), dval_digitChar _ (by omega),
    dval_digitChar _ (by omega), dval_digitChar _ (by omega),
    dval_digitChar _ (by omega), dval_digitChar _ (by omega),
    dval_digitChar _ (by omega), dval_digitChar _ (by omega),
    dval_digitChar _ (by omega), dval_digitChar _ (by omega)]
  rw [show y / 1000 * 1000 + y / 100 % 10 * 100 + y / 10 % 10 * 10 + y % 10 = y by omega]
  rw [show mo / 10 * 10 + mo % 10 = mo by omega]
  rw [show dd / 10 * 10 + dd % 10 = dd by omega]
  rw [show hh / 10 * 10 + hh % 10 = hh by omega]
  rw [show mi / 10 * 10 + mi % 10 = mi by omega]
  rw [show ss / 10 * 10 + ss % 10 = ss by omega]
  rw [if_pos ⟨hmo1, hmo2, hdd1, hdd2, hhh, hmi, hss⟩]
  rw [parseOffset_format off hoff]

/-- C9 counterexample: pointer-to-int8 is a supported leaf kind (the
spec's coercion table has a row for pointers to every scalar kind) and
`"42"` is the canonical string form of an int8 value, yet coercing it
does not read back the value: the pointer arm stores the address of an
`int64` parse result, `reflect.Value.Set` panics on the width mismatch
(see C2), nothing is stored, and there is no final value at all. -/
theorem C9_counterexample :
    setFieldValue (.vPtrNil .int8) (.ptr .int8) "42"
      = .panicked (.ptr .int8) (.ptr .int64) ∧
    (setFieldValue (.vPtrNil .int8) (.ptr .int8) "42").finalVal = none := by
  exact ⟨by decide, by decide⟩

/-- C9 (amended): coercing the canonical string form of a value of each
supported non-pointer leaf kind via `setFieldValue` and reading the
destination back recovers the original value: `true`/`false` for bool,
decimal digits for every signed kind (`int`, `int8`, `int16`, `int32`,
`int64`) and every unsigned kind (`uint`, `uint8`, `uint16`, `uint32`,
`uint64`), the nanosecond count with the `ns` unit (and the concrete
`"1h30m"`) for durations, scientific notation for exact decimal floats
(`float32` and `float64`), the string itself for strings, and the RFC3339
rendering for timestamps (for the timestamp kind the stored value reads
back correctly even though the call also reports the fall-through error —
see C1/C10). Among pointer leaves the round trip holds only for the
exact-width pointees `*bool`, `*int64`, `*uint64`, `*float64`, `*string`
and `*time.Time` (the latter modulo the same error); every other
pointer-to-scalar width panics and stores nothing (C9_counterexample,
C2). -/
theorem C9_round_trip (old : GoVal) (b : Bool) (i i8 i16 i32 : Int)
    (n n8 n16 n32 : Nat) (d m : Int) (k : Nat) (s : String) (t : Timestamp)
    (hi1 : -(2 ^ 63) ≤ i) (hi2 : i ≤ 2 ^ 63 - 1)
    (hi8a : -(2 ^ 7) ≤ i8) (hi8b : i8 ≤ 2 ^ 7 - 1)
    (hi16a : -(2 ^ 15) ≤ i16) (hi16b : i16 ≤ 2 ^ 15 - 1)
    (hi32a : -(2 ^ 31) ≤ i32) (hi32b : i32 ≤ 2 ^ 31 - 1)
    (hn : n ≤ 2 ^ 64 - 1) (hn8 : n8 ≤ 2 ^ 8 - 1)
    (hn16 : n16 ≤ 2 ^ 16 - 1) (hn32 : n32 ≤ 2 ^ 32 - 1)
    (hd1 : -(2 ^ 63) ≤ d) (hd2 : d ≤ 2 ^ 63 - 1)
    (ht : t.valid) :
    (setFieldValue old .bool (formatBool b)).finalVal = some (.vBool b) ∧
    (setFieldValue old .int (formatInt i)).finalVal = some (.vInt i) ∧
    (setFieldValue old .int8 (formatInt i8)).finalVal = some (.vInt8 i8) ∧
    (setFieldValue old .int16 (formatInt i16)).finalVal = some (.vInt16 i16) ∧
    (setFieldValue old .int32 (formatInt i32)).finalVal = some (.vInt32 i32) ∧
    (setFieldValue old .int64 (formatInt i)).finalVal = some (.vInt64 i) ∧
    (setFieldValue old .duration (formatInt d ++ "ns")).finalVal = some (.vDuration d) ∧
    (setFieldValue old .duration "1h30m").finalVal
      = some (.vDuration (90 * 60 * 1000000000)) ∧
    (setFieldValue old .uint (formatNat n)).finalVal = some (.vUint n) ∧
    (setFieldValue old .uint8 (formatNat n8)).finalVal = some (.vUint8 n8) ∧
    (setFieldValue old .uint16 (formatNat n16)).finalVal = some (.vUint16 n16) ∧
    (setFieldValue old .uint32 (formatNat n32)).finalVal = some (.vUint32 n32) ∧
    (setFieldValue old .uint64 (formatNat n)).finalVal = some (.vUint64 n) ∧
    (setFieldValue old .float32 (formatInt m ++ "e-" ++ formatNat k)).finalVal
      = some (.vFloat32 ((m : Rat) / 10 ^ k)) ∧
    (setFieldValue old .float64 (formatInt m ++ "e-" ++ formatNat k)).finalVal
      = some (.vFloat64 ((m : Rat) / 10 ^ k)) ∧
    (setFieldValue old .string s).finalVal = some (.vString s) ∧
    (setFieldValue old .time (formatRFC3339 t)).finalVal = some (.vTime t) ∧
    (setFieldValue old (.ptr .bool) (formatBool b)).finalVal
      = some (.vPtrTo .bool (.vBool b)) ∧
    (setFieldValue old (.ptr .int64) (formatInt i)).finalVal
      = some (.vPtrTo .int64 (.vInt64 i)) ∧
    (setFieldValue old (.ptr .uint64) (formatNat n)).finalVal
      = some (.vPtrTo .uint64 (.vUint64 n)) ∧
    (setFieldValue old (.ptr .float64) (formatInt m ++ "e-" ++ formatNat k)).finalVal
      = some (.vPtrTo .float64 (.vFloat64 ((m : Rat) / 10 ^ k))) ∧
    (setFieldValue old (.ptr .string) s).finalVal
      = some (.vPtrTo .string (.vString s)) ∧
    (setFieldValue old (.ptr .time) (formatRFC3339 t)).finalVal
      = some (.vPtrTo .time (.vTime t)) := by
  have hbool : goParseBool (formatBool b) = .ok b := by cases b <;> rfl
  have hpint := goParseInt_format i hi1 hi2
  have hpuint := goParseUint_format n 64 hn
  have hpfloat := goParseFloat_sci m k
  have hptime := goParseRFC3339_format t ht
  refine ⟨?_, ?_, ?_, ?_, ?_, ?_, ?_, ?_, ?_, ?_, ?_, ?_, ?_, ?_, ?_, ?_, ?_,
    ?_, ?_, ?_, ?_, ?_, ?_⟩
  · simp [setFieldValue, GoType.kind, hbool, CoerceResult.finalVal]
  · have hw := wrapSigned_id 64 i (by norm_num) (by omega) (by omega)
    simp [setFieldValue, GoType.kind, hpint, setIntVal, hw, CoerceResult.finalVal]
  · have hp := goParseInt_format i8 (by omega) (by omega)
    have hw := wrapSigned_id 8 i8 (by norm_num) (by omega) (by omega)
    simp [setFieldValue, GoType.kind, hp, setIntVal, hw, CoerceResult.finalVal]
  · have hp := goParseInt_format i16 (by omega) (by omega)
    have hw := wrapSigned_id 16 i16 (by norm_num) (by omega) (by omega)
    simp [setFieldValue, GoType.kind, hp, setIntVal, hw, CoerceResult.finalVal]
  · have hp := goParseInt_format i32 (by omega) (by omega)
    have hw := wrapSigned_id 32 i32 (by norm_num) (by omega) (by omega)
    simp [setFieldValue, GoType.kind, hp, setIntVal, hw, CoerceResult.finalVal]
  · have hw := wrapSigned_id 64 i (by norm_num) (by omega) (by omega)
    simp [setFieldValue, GoType.kind, hpint, hw, CoerceResult.finalVal]
  · have hp := goParseDuration_ns d hd1 hd2
    have hw := wrapSigned_id 64 d (by norm_num) (by omega) (by omega)
    simp [setFieldValue, GoType.kind, hp, hw, CoerceResult.finalVal]
  · rfl
  · simp [setFieldValue, GoType.kind, hpuint, setUintVal, CoerceResult.finalVal]
    omega
  · have hp := goParseUint_format n8 64 (by omega)
    simp [setFieldValue, GoType.kind, hp, setUintVal, CoerceResult.finalVal]
    omega
  · have hp := goParseUint_format n16 64 (by omega)
    simp [setFieldValue, GoType.kind, hp, setUintVal, CoerceResult.finalVal]
    omega
  · have hp := goParseUint_format n32 64 (by omega)
    simp [setFieldValue, GoType.kind, hp, setUintVal, CoerceResult.finalVal]
    omega
  · simp [setFieldValue, GoType.kind, hpuint, CoerceResult.finalVal]
    omega
  · simp [setFieldValue, GoType.kind, hpfloat, setFloatVal, CoerceResult.finalVal]
  · simp [setFieldValue, GoType.kind, hpfloat, setFloatVal, CoerceResult.finalVal]
  · rfl
  · simp [setFieldValue, GoType.kind, hptime, CoerceResult.finalVal]
  · simp [setFieldValue, GoType.kind, setPtrValue, goSet, hbool, CoerceResult.finalVal]
  · simp [setFieldValue, GoType.kind, setPtrValue, goSet, hpint, CoerceResult.finalVal]
  · simp [setFieldValue, GoType.kind, setPtrValue, goSet, hpuint, CoerceResult.finalVal]
  · simp [setFieldValue, GoType.kind, setPtrValue, goSet, hpfloat, CoerceResult.finalVal]
  · simp [setFieldValue, GoType.kind, setPtrValue, goSet, CoerceResult.finalVal]
  · simp [setFieldValue, GoType.kind, setPtrValue, goSet, hptime, CoerceResult.finalVal]

/-- Witness for C9: the round trip at concrete values of every leaf kind
covered by the amended claim. -/
theorem C9_round_trip_witness :
    (setFieldValue (.vInt 0) .bool (formatBool true)).finalVal = some (.vBool true) ∧
    (setFieldValue (.vInt 0) .int (formatInt (-42))).finalVal = some (.vInt (-42)) ∧
    (setFieldValue (.vInt 0) .int8 (formatInt (-5))).finalVal = some (.vInt8 (-5)) ∧
    (setFieldValue (.vInt 0) .int16 (formatInt 300)).finalVal = some (.vInt16 300) ∧
    (setFieldValue (.vInt 0) .int32 (formatInt 7)).finalVal = some (.vInt32 7) ∧
    (setFieldValue (.vInt 0) .int64 (formatInt (-42))).finalVal = some (.vInt64 (-42)) ∧
    (setFieldValue (.vInt 0) .duration (formatInt 5 ++ "ns")).finalVal
      = some (.vDuration 5) ∧
    (setFieldValue (.vInt 0) .duration "1h30m").finalVal
      = some (.vDuration (90 * 60 * 1000000000)) ∧
    (setFieldValue (.vInt 0) .uint (formatNat 7)).finalVal = some (.vUint 7) ∧
    (setFieldValue (.vInt 0) .uint8 (formatNat 200)).finalVal = some (.vUint8 200) ∧
    (setFieldValue (.vInt 0) .uint16 (formatNat 60000)).finalVal
      = some (.vUint16 60000) ∧
    (setFieldValue (.vInt 0) .uint32 (formatNat 70000)).finalVal
      = some (.vUint32 70000) ∧
    (setFieldValue (.vInt 0) .uint64 (formatNat 7)).finalVal = some (.vUint64 7) ∧
    (setFieldValue (.vInt 0) .float32 (formatInt 15 ++ "e-" ++ formatNat 1)).finalVal
      = some (.vFloat32 ((15 : Rat) / 10 ^ 1)) ∧
    (setFieldValue (.vInt 0) .float64 (formatInt 15 ++ "e-" ++ formatNat 1)).finalVal
      = some (.vFloat64 ((15 : Rat) / 10 ^ 1)) ∧
    (setFieldValue (.vInt 0) .string "hi").finalVal = some (.vString "hi") ∧
    (setFieldValue (.vInt 0) .time
        (formatRFC3339 ⟨2023, 1, 2, 3, 4, 5, 0⟩)).finalVal
      = some (.vTime ⟨2023, 1, 2, 3, 4, 5, 0⟩) ∧
    (setFieldValue (.vInt 0) (.ptr .bool) (formatBool true)).finalVal
      = some (.vPtrTo .bool (.vBool true)) ∧
    (setFieldValue (.vInt 0) (.ptr .int64) (formatInt (-42))).finalVal
      = some (.vPtrTo .int64 (.vInt64 (-42))) ∧
    (setFieldValue (.vInt 0) (.ptr .uint64) (formatNat 7)).finalVal
      = some (.vPtrTo .uint64 (.vUint64 7)) ∧
    (setFieldValue (.vInt 0) (.ptr .float64) (formatInt 15 ++ "e-" ++ formatNat 1)).finalVal
      = some (.vPtrTo .float64 (.vFloat64 ((15 : Rat) / 10 ^ 1))) ∧
    (setFieldValue (.vInt 0) (.ptr .string) "hi").finalVal
      = some (.vPtrTo .string (.vString "hi")) ∧
    (setFieldValue (.vInt 0) (.ptr .time) (formatRFC3339 ⟨2023, 1, 2, 3, 4, 5, 0⟩)).finalVal
      = some (.vPtrTo .time (.vTime ⟨2023, 1, 2, 3, 4, 5, 0⟩)) :=
  C9_round_trip (.vInt 0) true (-42) (-5) 300 7 7 200 60000 70000 5 15 1 "hi"
    ⟨2023, 1, 2, 3, 4, 5, 0⟩
    (by norm_num) (by norm_num) (by norm_num) (by norm_num) (by norm_num) (by norm_num)
    (by norm_num) (by norm_num) (by norm_num) (by norm_num) (by norm_num) (by norm_num)
    (by norm_num) (by norm_num) (by decide)

end Configurator
